import Mathlib

/-!
Verification development for the ezk media repository.

Shallow embedding of the SDP-negotiated RTP media session core
(media/rtc/src/state) and of the H.264 helper crate (media/h264/src).

Conventions used throughout:
* Rust machine integers are modelled as `Nat`; where overflow matters the
  bound 2^32 (for u32) is made explicit.
* A Rust panic (unwrap of None, index out of bounds, arithmetic overflow in
  a debug build, `unreachable!`) is modelled by an `Option`-valued function
  returning `none`.
* Ambient effects (`Instant::now()`, `rand::random()`) are passed in as
  explicit arguments.
* Source files declared in `state/mod.rs` but absent from the repository
  snapshot (`local_media.rs`, `transport.rs`, `rtp.rs`, `codecs.rs`,
  `options.rs`) are modelled from the specification; each such definition
  carries a doc comment starting with the words: Modelled from the spec.
-/

namespace Ezk

/-! ## H.264: profile_level_id.rs and lib.rs -/

/-- H.264 encoding profile. `profile_level_id.rs` (the file under
verification) references the variants `ConstrainedBaseline`, `High10Intra`,
`High422Intra`, `High444Intra` and `CAVLC444Intra`; the copy of the enum in
`lib.rs` omits them, so the full variant set required by
`ProfileLevelId::from_bytes` is used here. -/
inductive Profile where
  | constrainedBaseline
  | baseline
  | main
  | extended
  | high
  | high10
  | high422
  | high444Predictive
  | high10Intra
  | high422Intra
  | high444Intra
  | cavlc444Intra
deriving DecidableEq, Repr

/-- Profile idc bytes, from `Profile::profile_idc` in `lib.rs` for the shared
variants and from the first column of the `from_bytes` table for the variants
missing from the `lib.rs` copy of the enum. -/
def Profile.profile_idc : Profile → Nat
  | .constrainedBaseline => 66
  | .baseline => 66
  | .main => 77
  | .extended => 88
  | .high => 100
  | .high10 => 110
  | .high422 => 122
  | .high444Predictive => 244
  | .high10Intra => 110
  | .high422Intra => 122
  | .high444Intra => 244
  | .cavlc444Intra => 44

/-- Modelled from the spec: `Profile::profile_iop` is called by the
`Display` impl in `profile_level_id.rs` but its definition is not in the
repository snapshot. Values are the RFC 6184 constraint-set flags that the
`from_bytes` table patterns expect for each profile: constraint-set-1
(bit 0x40) for the constrained baseline profile, constraint-set-3
(bit 0x10) for the Intra profiles, 0 for the rest. The theorems below do
not depend on this choice (the demonstrated round-trip failure holds for
every profile_iop byte). -/
def Profile.profile_iop : Profile → Nat
  | .constrainedBaseline => 64
  | .high10Intra => 16
  | .high422Intra => 16
  | .high444Intra => 16
  | .cavlc444Intra => 16
  | _ => 0

/-- H.264 levels, from `Level` in `lib.rs`. -/
inductive Level where
  | level_1_0 | level_1_B | level_1_1 | level_1_2 | level_1_3
  | level_2_0 | level_2_1 | level_2_2
  | level_3_0 | level_3_1 | level_3_2
  | level_4_0 | level_4_1 | level_4_2
  | level_5_0 | level_5_1 | level_5_2
  | level_6_0 | level_6_1 | level_6_2
deriving DecidableEq, Repr

/-- Level idc bytes, from `Level::level_idc` in `lib.rs`. -/
def Level.level_idc : Level → Nat
  | .level_1_0 => 10
  | .level_1_B => 11
  | .level_1_1 => 11
  | .level_1_2 => 12
  | .level_1_3 => 13
  | .level_2_0 => 20
  | .level_2_1 => 21
  | .level_2_2 => 22
  | .level_3_0 => 30
  | .level_3_1 => 31
  | .level_3_2 => 32
  | .level_4_0 => 40
  | .level_4_1 => 41
  | .level_4_2 => 42
  | .level_5_0 => 50
  | .level_5_1 => 51
  | .level_5_2 => 52
  | .level_6_0 => 60
  | .level_6_1 => 61
  | .level_6_2 => 62

/-- `ProfileLevelId` from `profile_level_id.rs`. -/
structure ProfileLevelId where
  profile : Profile
  level : Level
deriving DecidableEq, Repr

/-- CONSTRAINT_SET3_FLAG from `profile_iop_consts` (1 <<< 4). -/
def CONSTRAINT_SET3_FLAG : Nat := 16

/-- Error type of `ProfileLevelId::from_bytes`. -/
inductive ProfileLevelIdFromBytesError where
  | unknownProfileIdc (b : Nat)
  | unknownLevelIdc (b : Nat)
deriving DecidableEq, Repr

/-- The local `bitpattern` closure in `from_bytes`: the input is masked with
the complement of `ignore` (bitwise not within u8, i.e. and with
255 - ignore) and compared with `pattern`. -/
def bitpatternMatches (ignore pat input : Nat) : Bool :=
  pat = (input &&& (255 - ignore))

/-- The lookup table of `from_bytes`, entries are
(profile_idc, (ignore, pattern), profile) in source order. -/
def fromBytesTable : List (Nat × (Nat × Nat) × Profile) :=
  [ (0x42, (0b10110000, 0b01000000), .constrainedBaseline)
  , (0x4D, (0b01110000, 0b10000000), .constrainedBaseline)
  , (0x58, (0b00110000, 0b11000000), .constrainedBaseline)
  , (0x42, (0b10110000, 0b00000000), .baseline)
  , (0x58, (0b00110000, 0b10000000), .baseline)
  , (0x4D, (0b01010000, 0b00000000), .main)
  , (0x58, (0b00110000, 0b00000000), .extended)
  , (0x64, (0, 0), .high)
  , (0x6E, (0, 0), .high10)
  , (0x7A, (0, 0), .high422)
  , (0xF4, (0, 0), .high444Predictive)
  , (0x6E, (0, 0b0010000), .high10Intra)
  , (0x7A, (0, 0b0010000), .high422Intra)
  , (0xF4, (0, 0b0010000), .high444Intra)
  , (0x2C, (0, 0b0010000), .cavlc444Intra)
  ]

/-- Level decoding part of `from_bytes`. -/
def levelFromIdc (profile_iop level_idc : Nat) : Option Level :=
  match level_idc with
  | 10 => some .level_1_0
  | 11 =>
    if profile_iop &&& CONSTRAINT_SET3_FLAG ≠ 0 then some .level_1_B
    else some .level_1_1
  | 12 => some .level_1_2
  | 13 => some .level_1_3
  | 20 => some .level_2_0
  | 21 => some .level_2_1
  | 22 => some .level_2_2
  | 30 => some .level_3_0
  | 31 => some .level_3_1
  | 32 => some .level_3_2
  | 40 => some .level_4_0
  | 41 => some .level_4_1
  | 42 => some .level_4_2
  | 50 => some .level_5_0
  | 51 => some .level_5_1
  | 52 => some .level_5_2
  | 60 => some .level_6_0
  | 61 => some .level_6_1
  | 62 => some .level_6_2
  | _ => none

/-- `ProfileLevelId::from_bytes`. The profile lookup mirrors the source
line for line, including its comparison `profile_idc != *p` of the input
byte against the table's idc column (note the source really uses `!=`
here, not `==`). -/
def ProfileLevelId.from_bytes (profile_idc profile_iop level_idc : Nat) :
    Except ProfileLevelIdFromBytesError ProfileLevelId :=
  match fromBytesTable.findSome?
      (fun e =>
        if profile_idc ≠ e.1 ∧ bitpatternMatches e.2.1.1 e.2.1.2 profile_iop then
          some e.2.2
        else
          none) with
  | none => .error (.unknownProfileIdc profile_idc)
  | some profile =>
    match levelFromIdc profile_iop level_idc with
    | none => .error (.unknownLevelIdc level_idc)
    | some level => .ok ⟨profile, level⟩

/-- One uppercase hex digit, used by the Display impl's format string. -/
def hexDigitUpper (n : Nat) : Char :=
  if n < 10 then Char.ofNat (48 + n) else Char.ofNat (55 + n)

/-- Two-digit uppercase hex rendering of a byte (format 02X). -/
def byteToHexUpper (b : Nat) : List Char :=
  [hexDigitUpper (b / 16), hexDigitUpper (b % 16)]

/-- The `Display` impl for `ProfileLevelId`: the profile's iop byte is
or-ed with CONSTRAINT_SET3_FLAG when the level is 1b, then profile_idc,
profile_iop and level_idc are written as three 2-digit hex bytes. -/
def ProfileLevelId.render (x : ProfileLevelId) : List Char :=
  let profile_iop :=
    if x.level = .level_1_B then x.profile.profile_iop ||| CONSTRAINT_SET3_FLAG
    else x.profile.profile_iop
  byteToHexUpper x.profile.profile_idc ++ byteToHexUpper profile_iop ++
    byteToHexUpper x.level.level_idc

/-- Error type of the `FromStr` impl. -/
inductive ParseProfileLevelIdError where
  | invalidLength
  | invalidHexCharacter
  | invalidValues (e : ProfileLevelIdFromBytesError)
deriving DecidableEq, Repr

/-- Hex digit value of a character, accepting both cases as
`u8::from_str_radix(_, 16)` does. -/
def hexDigitValue (c : Char) : Option Nat :=
  if 48 ≤ c.toNat ∧ c.toNat ≤ 57 then some (c.toNat - 48)
  else if 65 ≤ c.toNat ∧ c.toNat ≤ 70 then some (c.toNat - 55)
  else if 97 ≤ c.toNat ∧ c.toNat ≤ 102 then some (c.toNat - 87)
  else none

/-- Parse a two-hex-digit byte. -/
def parseHexByte (hi lo : Char) : Option Nat := do
  let h ← hexDigitValue hi
  let l ← hexDigitValue lo
  pure (16 * h + l)

/-- The `FromStr` impl for `ProfileLevelId`: exactly 6 characters, three
hex bytes, then `from_bytes`. -/
def ProfileLevelId.from_str (s : List Char) :
    Except ParseProfileLevelIdError ProfileLevelId :=
  match s with
  | [a, b, c, d, e, f] =>
    match parseHexByte a b, parseHexByte c d, parseHexByte e f with
    | some profile_idc, some profile_iop, some level_idc =>
      match ProfileLevelId.from_bytes profile_idc profile_iop level_idc with
      | .ok v => .ok v
      | .error err => .error (.invalidValues err)
    | _, _, _ => .error .invalidHexCharacter
  | _ => .error .invalidLength

/-! ## H.264: resolution_from_max_fs (lib.rs) -/

/-- Fuel-bounded version of the `greatest_common_divisor` loop in
`resolution_from_max_fs` (while b != 0: a, b = b, a mod b; result a).
The fuel argument only serves termination; `b < fuel` suffices. -/
def gcdAux : Nat → Nat → Nat → Nat
  | 0, a, _ => a
  | fuel + 1, a, b => if b = 0 then a else gcdAux fuel b (a % b)

/-- `greatest_common_divisor` from `resolution_from_max_fs`. -/
def greatest_common_divisor (a b : Nat) : Nat := gcdAux (b + 1) a b

/-- Checked u32 multiplication: in the source the products are u32; a
product not representable in 32 bits is an arithmetic overflow (a panic in
a debug build), modelled as `none`. -/
def chkMul (a b : Nat) : Option Nat :=
  if a * b < 4294967296 then some (a * b) else none

/-- The search loop of `resolution_from_max_fs` (`for i in 1..`). The fuel
starts at 2^32: when the u32 loop counter is exhausted the source panics
(debug) or never returns (release); both are modelled as `none`. -/
def resLoop (num denom maxPixels : Nat) : Nat → Nat → Option (Nat × Nat)
  | _, 0 => none
  | i, fuel + 1 =>
    match chkMul num i with
    | none => none
    | some width =>
      match chkMul denom i with
      | none => none
      | some height =>
        match chkMul width height with
        | none => none
        | some p =>
          if maxPixels < p then
            match chkMul num (i - 1) with
            | none => none
            | some w0 =>
              match chkMul denom (i - 1) with
              | none => none
              | some h0 => some (w0, h0)
          else
            resLoop num denom maxPixels (i + 1) fuel

/-- `resolution_from_max_fs` from `media/h264/src/lib.rs`. `max_pixels` is
`max_fs.saturating_mul(256)`; dividing by a zero gcd (num = denom = 0)
panics in the source and is `none` here. -/
def resolution_from_max_fs (num denom max_fs : Nat) : Option (Nat × Nat) :=
  let maxPixels := min (max_fs * 256) 4294967295
  let divisor := greatest_common_divisor num denom
  if divisor = 0 then none
  else resLoop (num / divisor) (denom / divisor) maxPixels 1 4294967296

/-! ## Lemmas about the h264 embedding -/

lemma gcdAux_eq (fuel : Nat) : ∀ a b : Nat, b < fuel → gcdAux fuel a b = Nat.gcd b a := by
  induction fuel with
  | zero => intro a b h; omega
  | succ n ih =>
    intro a b h
    by_cases hb : b = 0
    · subst hb; simp [gcdAux]
    · rw [gcdAux, if_neg hb, ih b (a % b) (by have := Nat.mod_lt a (Nat.pos_of_ne_zero hb); omega)]
      exact (Nat.gcd_rec b a).symm

lemma greatest_common_divisor_eq (a b : Nat) :
    greatest_common_divisor a b = Nat.gcd b a :=
  gcdAux_eq (b + 1) a b (Nat.lt_succ_self b)

lemma chkMul_some {a b c : Nat} (h : chkMul a b = some c) :
    c = a * b ∧ a * b < 4294967296 := by
  unfold chkMul at h
  split at h
  · exact ⟨(Option.some.injEq _ _ ▸ h).symm, by assumption⟩
  · exact absurd h (by simp)

lemma chkMul_of_lt {a b : Nat} (h : a * b < 4294967296) : chkMul a b = some (a * b) := by
  unfold chkMul; rw [if_pos h]

lemma resLoop_sound (fuel : Nat) : ∀ (num denom mp i w h : Nat),
    1 ≤ i →
    num * (i - 1) * (denom * (i - 1)) ≤ mp →
    resLoop num denom mp i fuel = some (w, h) →
    ∃ k, 1 ≤ k ∧ w = num * (k - 1) ∧ h = denom * (k - 1) ∧
      w * h ≤ mp ∧ mp < (w + num) * (h + denom) ∧
      (w + num) * (h + denom) < 4294967296 := by
  induction fuel with
  | zero => intro num denom mp i w h _ _ hres; simp [resLoop] at hres
  | succ n ih =>
    intro num denom mp i w h hi hprev hres
    rw [resLoop] at hres
    cases hwidth : chkMul num i with
    | none => rw [hwidth] at hres; simp at hres
    | some width =>
      cases hheight : chkMul denom i with
      | none => rw [hwidth, hheight] at hres; simp at hres
      | some height =>
        rw [hwidth, hheight] at hres
        dsimp only at hres
        obtain ⟨hw, hwlt⟩ := chkMul_some hwidth
        obtain ⟨hh, hhlt⟩ := chkMul_some hheight
        cases hp : chkMul width height with
        | none => rw [hp] at hres; simp at hres
        | some p =>
          rw [hp] at hres
          dsimp only at hres
          obtain ⟨hpe, hplt⟩ := chkMul_some hp
          by_cases hgt : mp < p
          · rw [if_pos hgt] at hres
            have hw0 : chkMul num (i - 1) = some (num * (i - 1)) :=
              chkMul_of_lt (lt_of_le_of_lt
                (Nat.mul_le_mul_left num (Nat.sub_le i 1)) hwlt)
            have hh0 : chkMul denom (i - 1) = some (denom * (i - 1)) :=
              chkMul_of_lt (lt_of_le_of_lt
                (Nat.mul_le_mul_left denom (Nat.sub_le i 1)) hhlt)
            rw [hw0, hh0] at hres
            obtain ⟨hwv, hhv⟩ := Prod.mk.injEq _ _ _ _ ▸ Option.some.injEq _ _ ▸ hres
            refine ⟨i, hi, hwv.symm, hhv.symm, ?_, ?_, ?_⟩
            · rw [← hwv, ← hhv]; exact hprev
            · have hnum : w + num = num * i := by
                rw [← hwv]; cases i with
                | zero => omega
                | succ m => simp [Nat.mul_succ]
              have hden : h + denom = denom * i := by
                rw [← hhv]; cases i with
                | zero => omega
                | succ m => simp [Nat.mul_succ]
              rw [hnum, hden, ← hw, ← hh, ← hpe]; exact hgt
            · have hnum : w + num = num * i := by
                rw [← hwv]; cases i with
                | zero => omega
                | succ m => simp [Nat.mul_succ]
              have hden : h + denom = denom * i := by
                rw [← hhv]; cases i with
                | zero => omega
                | succ m => simp [Nat.mul_succ]
              rw [hnum, hden, ← hw, ← hh]; exact hplt
          · rw [if_neg hgt] at hres
            have hnext : num * (i + 1 - 1) * (denom * (i + 1 - 1)) ≤ mp := by
              simpa [← hw, ← hh, ← hpe] using Nat.not_lt.mp hgt
            exact ih num denom mp (i + 1) w h (by omega) hnext hres

lemma resLoop_zero_num (fuel : Nat) : ∀ (d mp i : Nat),
    resLoop 0 d mp i fuel = none := by
  induction fuel with
  | zero => intro d mp i; rfl
  | succ n ih =>
    intro d mp i
    rw [resLoop]
    have h0 : chkMul 0 i = some 0 := by simp [chkMul]
    rw [h0]
    dsimp only
    cases hd : chkMul d i with
    | none => rfl
    | some height =>
      dsimp only
      have h0h : chkMul 0 height = some 0 := by simp [chkMul]
      rw [h0h]
      dsimp only
      rw [if_neg (by omega)]
      exact ih d mp (i + 1)

/-- C9 counterexample: with num = 0 the search loop of
`resolution_from_max_fs` never exceeds the pixel budget, so the source
never returns (the u32 loop counter overflows: a panic in a debug build, an
endless loop in release); no pair is produced, contradicting the claim's
universal quantification over all inputs. -/
theorem c9_resolution_from_max_fs_counterexample :
    resolution_from_max_fs 0 1 1 = none := by
  have hg : greatest_common_divisor 0 1 = 1 := rfl
  simp only [resolution_from_max_fs, hg]
  rw [if_neg one_ne_zero]
  have e1 : (0 : Nat) / 1 = 0 := Nat.div_one 0
  have e2 : (1 : Nat) / 1 = 1 := Nat.div_one 1
  have e3 : min (1 * 256 : Nat) 4294967295 = 256 := by omega
  rw [e1, e2, e3]
  exact resLoop_zero_num 4294967296 1 256 1

/-- C9 (amended): whenever `resolution_from_max_fs(num, denom, fs)` does
return a pair (w, h) (it panics or diverges on degenerate inputs such as
num = 0, denom = 0, or on budgets its u32 arithmetic cannot represent), the
pair stays within the budget (w·h ≤ 256·fs), exceeds it at the next step
((w + num/g)·(h + denom/g) > 256·fs with g = gcd(num, denom)), and
preserves the aspect: w·denom = h·num. -/
theorem c9_resolution_from_max_fs_bounds (num denom fs w h : Nat)
    (hres : resolution_from_max_fs num denom fs = some (w, h)) :
    w * h ≤ 256 * fs ∧
    256 * fs <
      (w + num / greatest_common_divisor num denom) *
      (h + denom / greatest_common_divisor num denom) ∧
    w * denom = h * num := by
  have hres2 :
      (if greatest_common_divisor num denom = 0 then none
       else resLoop (num / greatest_common_divisor num denom)
         (denom / greatest_common_divisor num denom)
         (min (fs * 256) 4294967295) 1 4294967296) = some (w, h) := hres
  set g := greatest_common_divisor num denom with hgdef
  by_cases hg : g = 0
  · rw [if_pos hg] at hres2; simp at hres2
  · rw [if_neg hg] at hres2
    obtain ⟨k, hk1, hwv, hhv, hle, hlt, hsz⟩ :=
      resLoop_sound 4294967296 (num / g) (denom / g)
        (min (fs * 256) 4294967295) 1 w h (le_refl 1) (by simp) hres2
    have hmp : min (fs * 256) 4294967295 = fs * 256 := by
      rcases Nat.lt_or_ge (fs * 256) 4294967296 with hc | hc
      · omega
      · exfalso; omega
    rw [hmp] at hle hlt
    have hgcd : g = Nat.gcd denom num := by rw [hgdef, greatest_common_divisor_eq]
    have hdvd_num : g ∣ num := hgcd ▸ Nat.gcd_dvd_right denom num
    have hdvd_denom : g ∣ denom := hgcd ▸ Nat.gcd_dvd_left denom num
    refine ⟨by omega, by omega, ?_⟩
    obtain ⟨a, ha⟩ := hdvd_num
    obtain ⟨b, hb⟩ := hdvd_denom
    have hag : num / g = a := by
      rw [ha]; exact Nat.mul_div_cancel_left a (Nat.pos_of_ne_zero hg)
    have hbg : denom / g = b := by
      rw [hb]; exact Nat.mul_div_cancel_left b (Nat.pos_of_ne_zero hg)
    rw [hwv, hhv, hag, hbg, ha, hb]; ring

/-- Witness for c9_resolution_from_max_fs_bounds at num 16, denom 9, fs 1:
the function returns (16, 9) and the three properties hold there. -/
theorem c9_resolution_from_max_fs_witness :
    resolution_from_max_fs 16 9 1 = some (16, 9) ∧
    (16 * 9 ≤ 256 * 1 ∧
     256 * 1 <
       (16 + 16 / greatest_common_divisor 16 9) *
       (9 + 9 / greatest_common_divisor 16 9) ∧
     16 * 9 = 9 * 16) :=
  ⟨by decide, c9_resolution_from_max_fs_bounds 16 9 1 16 9 (by decide)⟩

/-- C8: the Display/FromStr round-trip of ProfileLevelId fails. Rendering
the ProfileLevelId with profile High and level 3.1 gives the hex string
64001F, and parsing that string back yields profile Baseline: `from_bytes`
compares the input idc byte against the table rows with a disequality
(`profile_idc != *p` in the source), so the High row (0x64) can never match
an input whose profile_idc is 0x64, while the Baseline row wins because
0x64 differs from 0x42. -/
theorem c8_profile_level_id_roundtrip_failure :
    ProfileLevelId.from_str (ProfileLevelId.render ⟨.high, .level_3_1⟩) =
      .ok ⟨.baseline, .level_3_1⟩ ∧
    Profile.baseline ≠ Profile.high :=
  ⟨rfl, by decide⟩

/-! ## SDP data model (external crate sdp-types, modelled as used) -/

/-- Media type of an m-line (sdp-types `MediaType`). -/
inductive MediaType where
  | audio
  | video
  | app
deriving DecidableEq, Repr

/-- SDP direction attribute (sdp-types `Direction`). -/
inductive Direction where
  | sendRecv
  | sendOnly
  | recvOnly
  | inactive
deriving DecidableEq, Repr

/-- `Direction::flipped` of the external sdp-types crate, per the spec:
the peer's sendonly is our recvonly and vice versa. -/
def Direction.flipped : Direction → Direction
  | .sendRecv => .sendRecv
  | .sendOnly => .recvOnly
  | .recvOnly => .sendOnly
  | .inactive => .inactive

/-- `DirectionBools` from `state/mod.rs`. -/
structure DirectionBools where
  send : Bool
  recv : Bool
deriving DecidableEq, Repr

/-- From-impl DirectionBools → Direction in `state/mod.rs`. -/
def DirectionBools.toDirection (d : DirectionBools) : Direction :=
  match d.send, d.recv with
  | true, true => .sendRecv
  | true, false => .sendOnly
  | false, true => .recvOnly
  | false, false => .inactive

/-- From-impl Direction → DirectionBools in `state/mod.rs`. -/
def Direction.toBools : Direction → DirectionBools
  | .sendRecv => ⟨true, true⟩
  | .recvOnly => ⟨false, true⟩
  | .sendOnly => ⟨true, false⟩
  | .inactive => ⟨false, false⟩

/-- SDP transport protocol token (sdp-types `TransportProtocol`). -/
inductive TransportProtocol where
  | unspecified
  | rtpAvp
  | rtpAvpf
  | rtpSavp
  | rtpSavpf
  | udpTlsRtpSavp
  | udpTlsRtpSavpf
  | other (s : String)
deriving DecidableEq, Repr

/-- An rtpmap attribute (sdp-types `RtpMap`). -/
structure RtpMap where
  payload : Nat
  encoding : String
  clock_rate : Nat
  params : Option Nat
deriving DecidableEq, Repr

/-- An fmtp attribute (sdp-types `Fmtp`). -/
structure Fmtp where
  format : Nat
  params : String
deriving DecidableEq, Repr

/-- An rtcp attribute (sdp-types `Rtcp`), reduced to the port. -/
structure RtcpAttr where
  port : Nat
deriving DecidableEq, Repr

/-- The m= line data (sdp-types `Media`). -/
structure MediaLine where
  media_type : MediaType
  port : Nat
  proto : TransportProtocol
  fmts : List Nat
deriving DecidableEq, Repr

/-- A media description (sdp-types `MediaDescription`), reduced to the
fields the session state reads and writes; attribute families that the
state machine never inspects (ICE credentials, candidates, crypto, setup,
fingerprint, extmap, ssrc) are omitted. -/
structure MediaDescription where
  media : MediaLine
  direction : Direction
  rtcp : Option RtcpAttr
  rtcp_mux : Bool
  mid : Option String
  rtpmap : List RtpMap
  fmtp : List Fmtp
deriving DecidableEq, Repr

/-- A BUNDLE (or other) group attribute (sdp-types `Group`). -/
structure Group where
  typ : String
  mids : List String
deriving DecidableEq, Repr

/-- The o= line (sdp-types `Origin`), reduced to the numeric ids. -/
structure Origin where
  session_id : Nat
  session_version : Nat
  address : Nat
deriving DecidableEq, Repr

/-- A session description (sdp-types `SessionDescription`), reduced to the
fields the session state reads and writes. Addresses are opaque numbers. -/
structure SessionDescription where
  origin : Origin
  connection : Option Nat
  direction : Direction
  group : List Group
  media_descriptions : List MediaDescription
deriving DecidableEq, Repr

/-! ## Options, codecs (options.rs / codecs.rs are absent from the snapshot) -/

/-- Transport type (options.rs): RTP, SDES-SRTP or DTLS-SRTP, ordered as
declared (`add_media` takes the max over existing transports). -/
inductive TransportType where
  | rtp
  | sdesSrtp
  | dtlsSrtp
deriving DecidableEq, Repr

/-- Declaration order of the transport types, used for the max in
`add_media`. -/
def TransportType.rank : TransportType → Nat
  | .rtp => 0
  | .sdesSrtp => 1
  | .dtlsSrtp => 2

/-- Modelled from the spec: `TransportType::sdp_type` (options.rs is not in
the snapshot) maps the transport type and the AVPF flag to the SDP protocol
token, per the token list of spec section 6. -/
def TransportType.sdp_type (t : TransportType) (avpf : Bool) : TransportProtocol :=
  match t, avpf with
  | .rtp, false => .rtpAvp
  | .rtp, true => .rtpAvpf
  | .sdesSrtp, false => .rtpSavp
  | .sdesSrtp, true => .rtpSavpf
  | .dtlsSrtp, false => .udpTlsRtpSavp
  | .dtlsSrtp, true => .udpTlsRtpSavpf

/-- rtcp-mux negotiation policy (options.rs), per spec section 4.6. -/
inductive RtcpMuxPolicy where
  | negotiate
  | require
deriving DecidableEq, Repr

/-- Bundle policy (options.rs), per spec section 4.6. -/
inductive BundlePolicy where
  | maxCompat
  | maxBundle
deriving DecidableEq, Repr

/-- Modelled from the spec: session `Options` (options.rs is not in the
snapshot), with exactly the five recognized options of spec section 4.6. -/
structure Options where
  offer_transport : TransportType
  offer_ice : Bool
  offer_avpf : Bool
  rtcp_mux_policy : RtcpMuxPolicy
  bundle_policy : BundlePolicy
deriving DecidableEq, Repr

/-- A codec entry (codecs.rs is not in the snapshot; fields per spec
section 3 and their uses in mod.rs/sdp.rs): name, clock rate, optional
channel count, optional static payload type, optional fmtp line. -/
structure Codec where
  name : String
  clock_rate : Nat
  channels : Option Nat
  pt : Option Nat
  fmtp : Option String
deriving DecidableEq, Repr

/-- A codec collection for one media type (codecs.rs is not in the
snapshot; fields per their uses in mod.rs: media_type, codecs,
allow_dtmf). -/
structure Codecs where
  media_type : MediaType
  codecs : List Codec
  allow_dtmf : Bool
deriving DecidableEq, Repr

/-- Negotiated DTMF data (codecs.rs). -/
structure NegotiatedDtmf where
  pt : Nat
  fmtp : Option String
deriving DecidableEq, Repr

/-- Negotiated codec description carried in MediaAdded events (codecs.rs;
fields per spec section 3). -/
structure NegotiatedCodec where
  send_pt : Nat
  recv_pt : Nat
  name : String
  clock_rate : Nat
  channels : Option Nat
  send_fmtp : Option String
  recv_fmtp : Option String
  dtmf : Option NegotiatedDtmf
deriving DecidableEq, Repr

/-! ## SlotMap model -/

/-- Model of the slotmap `SlotMap` containers of the session state: an
association list with monotonically fresh numeric keys. Iteration order is
insertion order (the claims under verification do not depend on slotmap's
slot-reuse order). -/
structure SlotMap (α : Type) where
  next_key : Nat
  entries : List (Nat × α)
deriving DecidableEq, Repr

/-- The empty slotmap, first key 0. -/
def SlotMap.empty {α : Type} : SlotMap α := ⟨0, []⟩

/-- `insert_with_key`: the value may mention its own fresh key. -/
def SlotMap.insertWithKey {α : Type} (m : SlotMap α) (f : Nat → α) :
    Nat × SlotMap α :=
  (m.next_key, ⟨m.next_key + 1, m.entries ++ [(m.next_key, f m.next_key)]⟩)

/-- Plain `insert`. -/
def SlotMap.insert {α : Type} (m : SlotMap α) (a : α) : Nat × SlotMap α :=
  m.insertWithKey (fun _ => a)

/-- Key lookup. -/
def SlotMap.get? {α : Type} (m : SlotMap α) (k : Nat) : Option α :=
  (m.entries.find? (fun e => e.1 = k)).map (·.2)

/-- Replace the value stored at a key (no-op for an absent key). -/
def SlotMap.setVal {α : Type} (m : SlotMap α) (k : Nat) (a : α) : SlotMap α :=
  ⟨m.next_key, m.entries.map (fun e => if e.1 = k then (k, a) else e)⟩

/-- Update the value stored at a key (no-op for an absent key). -/
def SlotMap.modifyVal {α : Type} (m : SlotMap α) (k : Nat) (f : α → α) : SlotMap α :=
  ⟨m.next_key, m.entries.map (fun e => if e.1 = k then (e.1, f e.2) else e)⟩

/-- `retain`: keeps the entries satisfying the predicate. -/
def SlotMap.retain {α : Type} (m : SlotMap α) (p : Nat → α → Bool) : SlotMap α :=
  ⟨m.next_key, m.entries.filter (fun e => p e.1 e.2)⟩

/-- The stored values in iteration order. -/
def SlotMap.values {α : Type} (m : SlotMap α) : List α := m.entries.map (·.2)

/-- Key membership. -/
def SlotMap.contains {α : Type} (m : SlotMap α) (k : Nat) : Bool :=
  m.entries.any (fun e => e.1 = k)

/-! ## RTP session, transport (rtp.rs / transport.rs are absent from the snapshot) -/

/-- An RTP packet as the session state manipulates it (external rtp crate,
reduced to the fields read in the sources: payload type, ssrc, sequence
number, the mid header extension and an opaque payload). -/
structure RtpPacket where
  pt : Nat
  ssrc : Nat
  seq : Nat
  ext_mid : Option String
  payload : List Nat
deriving DecidableEq, Repr

/-- Modelled from the spec: `RtpSession` (rtp.rs is not in the snapshot),
per spec section 4.3: local SSRC fixed at construction, clock rate, a
jitter buffer of received packets, remote SSRCs learned on first receipt
and retained, send counters. -/
structure RtpSession where
  ssrc : Nat
  clock_rate : Nat
  jitter_buffer : List RtpPacket
  remote_ssrcs : List Nat
  sent_packets : Nat
  sent_octets : Nat
deriving DecidableEq, Repr

/-- Modelled from the spec: `RtpSession::new` with the given (random)
local SSRC and clock rate. -/
def RtpSession.new (ssrc clock_rate : Nat) : RtpSession :=
  ⟨ssrc, clock_rate, [], [], 0, 0⟩

/-- Modelled from the spec: `recv_rtp` inserts into the jitter buffer and
learns the sender SSRC. -/
def RtpSession.recv_rtp (s : RtpSession) (p : RtpPacket) : RtpSession :=
  { s with
    jitter_buffer := s.jitter_buffer ++ [p]
    remote_ssrcs :=
      if s.remote_ssrcs.contains p.ssrc then s.remote_ssrcs
      else s.remote_ssrcs ++ [p.ssrc] }

/-- Modelled from the spec: `pop_rtp` releases the oldest packet whose
hold deadline has elapsed (hold deadlines are not modelled: the head of
the buffer, if any, is ready). -/
def RtpSession.pop_rtp (s : RtpSession) : Option RtpPacket × RtpSession :=
  match s.jitter_buffer with
  | [] => (none, s)
  | p :: rest => (some p, { s with jitter_buffer := rest })

/-- Modelled from the spec: `send_rtp` only updates the send counters; the
transport write is the caller's responsibility. -/
def RtpSession.send_rtp (s : RtpSession) (p : RtpPacket) : RtpSession :=
  { s with
    sent_packets := s.sent_packets + 1
    sent_octets := s.sent_octets + p.payload.length }

/-- An encoded RTCP report as an opaque value: sender or receiver report
with the reporting SSRC and one block per remote SSRC (spec section 4.3:
`write_rtcp_report` emits an SR if the session has sent any RTP, else an
RR). -/
structure RtcpReport where
  is_sr : Bool
  ssrc : Nat
  blocks : Nat
deriving DecidableEq, Repr

/-- Modelled from the spec: `write_rtcp_report`. -/
def RtpSession.write_rtcp_report (s : RtpSession) : RtcpReport :=
  ⟨0 < s.sent_packets, s.ssrc, s.remote_ssrcs.length⟩

/-- A parsed RTCP packet of a compound (external rtp crate rtcp-types,
reduced to the constructor kinds `receive` distinguishes and the SSRC each
kind reports). -/
inductive RtcpPacket where
  | app
  | bye
  | rr (ssrc : Nat)
  | sdes
  | sr (ssrc : Nat)
  | transportFeedback (sender_ssrc : Nat)
  | payloadFeedback (sender_ssrc : Nat)
  | unknown
deriving DecidableEq, Repr

/-- Modelled from the spec: `recv_rtcp` only updates receive statistics
(which no claim under verification observes); the session is returned
unchanged. -/
def RtpSession.recv_rtcp (s : RtpSession) (_ : RtcpPacket) : RtpSession := s

/-- ICE/RTCP socket component (external ice crate `Component`). -/
inductive Component where
  | rtp
  | rtcp
deriving DecidableEq, Repr

/-- Payload of an outgoing datagram in a SendData event. -/
inductive SendPayload where
  | rtp (p : RtpPacket)
  | rtcp (r : RtcpReport)
deriving DecidableEq, Repr

/-- Socket address, reduced to an opaque ip and a port. -/
structure SocketAddr where
  ip : Nat
  port : Nat
deriving DecidableEq, Repr

/-- Connection state of a transport, from `state/events.rs`. -/
inductive TransportConnectionState where
  | new
  | connecting
  | connected
  | failed
deriving DecidableEq, Repr

/-- Modelled from the spec: events emitted by a transport and drained by
`SessionState::pop_event` (transport.rs is not in the snapshot). ICE agent
events are not modelled (the ICE agent is an external collaborator). -/
inductive TransportEvent where
  | connectionState (old new_ : TransportConnectionState)
  | sendData (component : Component) (data : SendPayload) (target : SocketAddr)
deriving DecidableEq, Repr

/-- Modelled from the spec: a built `Transport` (transport.rs is not in
the snapshot), per spec sections 3 and 4.2: type, AVPF capability, local
RTP port and optional local RTCP port (absent iff rtcp-mux), remote RTP
and RTCP addresses, connection state, and its pending event queue. -/
structure Transport where
  typ : TransportType
  local_rtp_port : Option Nat
  local_rtcp_port : Option Nat
  remote_rtp_address : SocketAddr
  remote_rtcp_address : SocketAddr
  rtcp_mux : Bool
  connection_state : TransportConnectionState
  events : List TransportEvent
deriving DecidableEq, Repr

/-- Modelled from the spec: `Transport::send_rtcp` addresses the report to
the remote RTCP address; sending on a transport that is not Connected is
silently dropped (spec section 4.2). -/
def Transport.send_rtcp (t : Transport) (r : RtcpReport) : Transport :=
  if t.connection_state = .connected then
    { t with events := t.events ++
        [.sendData .rtcp (.rtcp r) t.remote_rtcp_address] }
  else
    t

/-- Modelled from the spec: `Transport::send_rtp`, as send_rtcp but to the
remote RTP address. -/
def Transport.send_rtp (t : Transport) (p : RtpPacket) : Transport :=
  if t.connection_state = .connected then
    { t with events := t.events ++
        [.sendData .rtp (.rtp p) t.remote_rtp_address] }
  else
    t

/-- Modelled from the spec: a `TransportBuilder` (transport.rs is not in
the snapshot): configuration and local ports held until the peer answer
fixes the remaining parameters. -/
structure TransportBuilder where
  typ : TransportType
  local_rtp_port : Option Nat
  local_rtcp_port : Option Nat
  rtcp_mux_policy : RtcpMuxPolicy
  offer_ice : Bool
  events : List TransportEvent
deriving DecidableEq, Repr

/-- Transport change requests, from `state/events.rs`. -/
inductive TransportChange where
  | createSocket (tid : Nat)
  | createSocketPair (tid : Nat)
  | remove (tid : Nat)
  | removeRtcpSocket (tid : Nat)
deriving DecidableEq, Repr

/-- Modelled from the spec: `TransportBuilder::new` requests one socket
when the rtcp-mux policy is Require (the offer will omit the RTCP port)
and a socket pair under Negotiate (spec section 4.2). -/
def TransportBuilder.new (id : Nat) (changes : List TransportChange)
    (typ : TransportType) (policy : RtcpMuxPolicy) (offer_ice : Bool) :
    TransportBuilder × List TransportChange :=
  ( ⟨typ, none, none, policy, offer_ice, []⟩
  , changes ++ [match policy with
      | .require => .createSocket id
      | .negotiate => .createSocketPair id] )

/-- The protocol tokens accepted when creating a transport from a remote
description, and the transport type each implies. -/
def transportTypeOfProto : TransportProtocol → Option TransportType
  | .rtpAvp => some .rtp
  | .rtpAvpf => some .rtp
  | .rtpSavp => some .sdesSrtp
  | .rtpSavpf => some .sdesSrtp
  | .udpTlsRtpSavp => some .dtlsSrtp
  | .udpTlsRtpSavpf => some .dtlsSrtp
  | _ => none

/-- Remote RTP and RTCP addresses implied by an offer m-line: the RTP
address is the session (or media) connection address with the m-line port;
with rtcp-mux the RTCP address coincides, otherwise it uses the rtcp
attribute port or RTP port + 1. -/
def remoteAddrsOfDesc (sess : SessionDescription) (desc : MediaDescription) :
    SocketAddr × SocketAddr :=
  let ip := sess.connection.getD 0
  let rtp : SocketAddr := ⟨ip, desc.media.port⟩
  let rtcp : SocketAddr :=
    if desc.rtcp_mux then rtp
    else ⟨ip, (desc.rtcp.map (·.port)).getD (desc.media.port + 1)⟩
  (rtp, rtcp)

/-- Modelled from the spec: `Transport::create_from_offer` (spec sections
4.2 and 4.5.1): None for an unsupported protocol token, otherwise a
transport seeded from the offer; it requests one socket when the offer
negotiated rtcp-mux and a pair otherwise. A fresh transport starts in
connection state New. -/
def Transport.create_from_offer (id : Nat) (changes : List TransportChange)
    (sess : SessionDescription) (desc : MediaDescription) :
    Option (Transport × List TransportChange) :=
  match transportTypeOfProto desc.media.proto with
  | none => none
  | some typ =>
    let addrs := remoteAddrsOfDesc sess desc
    some
      ( ⟨typ, none, none, addrs.1, addrs.2, desc.rtcp_mux, .new, []⟩
      , changes ++ [if desc.rtcp_mux then .createSocket id else .createSocketPair id] )

/-- Modelled from the spec: `TransportBuilder::build_from_answer` (spec
sections 4.2 and 4.5.3): the answer fixes the remote addresses and the
rtcp-mux state; under policy Negotiate a confirmed mux releases the RTCP
socket (RemoveRtcpSocket). Plain RTP and SDES-SRTP transports are
Connected once the exchange concludes; DTLS-SRTP starts its handshake. -/
def TransportBuilder.build_from_answer (b : TransportBuilder) (id : Nat)
    (changes : List TransportChange) (sess : SessionDescription)
    (desc : MediaDescription) : Transport × List TransportChange :=
  let addrs := remoteAddrsOfDesc sess desc
  let muxed := desc.rtcp_mux
  let changes2 :=
    if muxed ∧ b.rtcp_mux_policy = .negotiate ∧ b.local_rtcp_port.isSome then
      changes ++ [.removeRtcpSocket id]
    else
      changes
  ( { typ := b.typ
      local_rtp_port := b.local_rtp_port
      local_rtcp_port := if muxed then none else b.local_rtcp_port
      remote_rtp_address := addrs.1
      remote_rtcp_address := addrs.2
      rtcp_mux := muxed
      connection_state := if b.typ = .dtlsSrtp then .connecting else .connected
      events := b.events }
  , changes2 )

/-- `TransportEntry` from `state/mod.rs`. -/
inductive TransportEntry where
  | transport (t : Transport)
  | transportBuilder (b : TransportBuilder)
deriving DecidableEq, Repr

/-- `TransportEntry::type_`. -/
def TransportEntry.typ : TransportEntry → TransportType
  | .transport t => t.typ
  | .transportBuilder b => b.typ

/-- `TransportEntry::unwrap` (panics on a builder): the Option models the
panic. -/
def TransportEntry.unwrapBuilt : TransportEntry → Option Transport
  | .transport t => some t
  | .transportBuilder _ => none

/-! ## Events (state/events.rs) and local media -/

/-- `MediaAdded` event data, from `state/events.rs`. -/
structure MediaAdded where
  id : Nat
  transport_id : Nat
  local_media_id : Nat
  direction : Direction
  codec : NegotiatedCodec
deriving DecidableEq, Repr

/-- `MediaChanged` event data, from `state/events.rs`. -/
structure MediaChanged where
  id : Nat
  old_direction : Direction
  new_direction : Direction
deriving DecidableEq, Repr

/-- Session events, from `state/events.rs` (ICE agent events omitted, the
agent being an external collaborator). -/
inductive Event where
  | mediaAdded (e : MediaAdded)
  | mediaChanged (e : MediaChanged)
  | mediaRemoved (id : Nat)
  | transportConnectionState (transport_id : Nat)
      (old new_ : TransportConnectionState)
  | sendData (transport_id : Nat) (component : Component)
      (data : SendPayload) (target : SocketAddr)
  | receiveRTP (media_id : Nat) (packet : RtpPacket)
deriving DecidableEq, Repr

/-- Modelled from the spec: `LocalMedia` (local_media.rs is not in the
snapshot; fields per their uses in mod.rs/sdp.rs): codec collection,
instance limit, current use count, default direction, DTMF payload list of
(payload type, clock rate) pairs. -/
structure LocalMedia where
  codecs : Codecs
  limit : Nat
  use_count : Nat
  direction : DirectionBools
  dtmf : List (Nat × Nat)
deriving DecidableEq, Repr

/-- The codec chosen for a media session out of a LocalMedia. -/
structure ChosenCodec where
  codec : Codec
  remote_pt : Nat
  direction : DirectionBools
  dtmf : Option Nat
deriving DecidableEq, Repr

/-- Direction intersection used when choosing a codec (spec section 4.1:
the direction is the intersection of the local default and the flipped
remote direction). -/
def DirectionBools.intersect (a b : DirectionBools) : DirectionBools :=
  ⟨a.send && b.send, a.recv && b.recv⟩

/-- Whether a local codec matches an rtpmap entry: equal encoding name,
clock rate and channel count (spec section 4.1). -/
def codecMatchesRtpmap (c : Codec) (rm : RtpMap) : Bool :=
  rm.encoding = c.name ∧ rm.clock_rate = c.clock_rate ∧ rm.params = c.channels

/-- Modelled from the spec: `LocalMedia::maybe_use_for_offer` (spec
section 4.1): subject to use_count below the limit and a matching media
type, the first local codec whose name, clock rate and channels match any
rtpmap entry of the remote description is chosen; the direction is the
intersection of the local default with the flipped remote direction, and
an Inactive intersection refuses the match; an rtpmap telephone-event
entry at the chosen codec's clock rate supplies the DTMF payload type when
DTMF is allowed. On success the use count is incremented (spec section 3:
use_count tracks the Media instances currently bound). fmtp compatibility
is modelled as always compatible. -/
def LocalMedia.maybe_use_for_offer (lm : LocalMedia) (desc : MediaDescription) :
    Option (ChosenCodec × LocalMedia) :=
  if lm.codecs.media_type ≠ desc.media.media_type then none
  else if lm.limit ≤ lm.use_count then none
  else
    match lm.codecs.codecs.findSome? (fun c =>
        (desc.rtpmap.findSome? (fun rm =>
          if codecMatchesRtpmap c rm then some rm.payload else none)).map
          (fun pt => (c, pt))) with
    | none => none
    | some (codec, remote_pt) =>
      let dir := lm.direction.intersect (desc.direction.flipped).toBools
      if dir = ⟨false, false⟩ then none
      else
        let dtmf :=
          if lm.codecs.allow_dtmf then
            desc.rtpmap.findSome? (fun rm =>
              if rm.encoding = "telephone-event" ∧ rm.clock_rate = codec.clock_rate
              then some rm.payload else none)
          else none
        some (⟨codec, remote_pt, dir, dtmf⟩, { lm with use_count := lm.use_count + 1 })

/-- Modelled from the spec: `LocalMedia::choose_codec_from_answer` (spec
section 4.1): the same matching, over the payload types the answerer kept
in its m-line. On success the use count is incremented. -/
def LocalMedia.choose_codec_from_answer (lm : LocalMedia) (desc : MediaDescription) :
    Option (ChosenCodec × LocalMedia) :=
  match lm.codecs.codecs.findSome? (fun c =>
      (desc.rtpmap.findSome? (fun rm =>
        if codecMatchesRtpmap c rm then some rm.payload else none)).map
        (fun pt => (c, pt))) with
  | none => none
  | some (codec, remote_pt) =>
    let dir := lm.direction.intersect (desc.direction.flipped).toBools
    let dtmf :=
      if lm.codecs.allow_dtmf then
        desc.rtpmap.findSome? (fun rm =>
          if rm.encoding = "telephone-event" ∧ rm.clock_rate = codec.clock_rate
          then some rm.payload else none)
      else none
    some (⟨codec, remote_pt, dir, dtmf⟩, { lm with use_count := lm.use_count + 1 })

/-! ## Media (state/media.rs) -/

/-- `Media` from `state/media.rs` (same fields; instants are Nat
milliseconds). -/
structure Media where
  id : Nat
  local_media_id : Nat
  media_type : MediaType
  rtp_session : RtpSession
  avpf : Bool
  next_rtcp : Nat
  rtcp_interval : Nat
  mid : Option String
  direction : DirectionBools
  transport : Nat
  codec_pt : Nat
  codec : Codec
  dtmf_pt : Option Nat
deriving DecidableEq, Repr

/-- `rtcp_interval` from `state/media.rs`: 1 second for video, 5 seconds
for every other media type (milliseconds here). -/
def rtcpIntervalOf (media_type : MediaType) : Nat :=
  match media_type with
  | .video => 1000
  | _ => 5000

/-- `Media::new` from `state/media.rs`: a fresh RTP session with a random
SSRC (passed in), the first RTCP tick 5 seconds from now, the interval by
media type. -/
def Media.new (id local_media_id : Nat) (media_type : MediaType)
    (mid : Option String) (direction : DirectionBools) (avpf : Bool)
    (transport : Nat) (codec_pt : Nat) (codec : Codec) (dtmf_pt : Option Nat)
    (now ssrc : Nat) : Media :=
  { id, local_media_id, media_type
    rtp_session := RtpSession.new ssrc codec.clock_rate
    avpf
    next_rtcp := now + 5000
    rtcp_interval := rtcpIntervalOf media_type
    mid, direction, transport, codec_pt, codec, dtmf_pt }

/-- `Media::matches` from `state/media.rs`: the media type must agree;
when both sides carry a mid the mids decide; otherwise the media's
transport must be built and its remote RTP port equal the m-line port.
(The source indexes the slotmap and would panic on a dangling transport
id; live media never hold one, see the C6 invariant, and the model returns
false there.) -/
def Media.matches (m : Media) (transports : SlotMap TransportEntry)
    (desc : MediaDescription) : Bool :=
  if m.media_type ≠ desc.media.media_type then false
  else
    match m.mid, desc.mid with
    | some a, some b => a = b
    | _, _ =>
      match transports.get? m.transport with
      | some (.transport t) => t.remote_rtp_address.port = desc.media.port
      | _ => false

/-- `Media::poll` from `state/media.rs`: release a jitter-buffered packet
as a ReceiveRTP event; when the RTCP deadline has passed, advance it by
exactly one interval and send a report only if the transport is Connected
(`send_rtcp_report`, whose transport write the transport drops when not
Connected anyway). -/
def Media.poll (m : Media) (now : Nat) (t : Transport) :
    Media × Transport × List Event :=
  let popped := m.rtp_session.pop_rtp
  let events :=
    match popped.1 with
    | some p => [Event.receiveRTP m.id p]
    | none => []
  let m := { m with rtp_session := popped.2 }
  if m.next_rtcp ≤ now then
    let m2 := { m with next_rtcp := m.next_rtcp + m.rtcp_interval }
    if t.connection_state ≠ .connected then
      (m2, t, events)
    else
      (m2, t.send_rtcp (m2.rtp_session.write_rtcp_report), events)
  else
    (m, t, events)

/-- `Media::send_rtp` from `state/media.rs`: rewrite the packet's SSRC and
mid extension, update the session counters, hand the packet to the
transport. -/
def Media.send_rtp (m : Media) (t : Transport) (packet : RtpPacket) :
    Media × Transport :=
  let packet := { packet with ssrc := m.rtp_session.ssrc, ext_mid := m.mid }
  let m := { m with rtp_session := m.rtp_session.send_rtp packet }
  (m, t.send_rtp packet)

/-- `Media::recv_rtp` from `state/media.rs`. -/
def Media.recv_rtp (m : Media) (p : RtpPacket) : Media :=
  { m with rtp_session := m.rtp_session.recv_rtp p }

/-- `Media::recv_rtcp` from `state/media.rs`: each packet of the compound
is fed to the RTP session. -/
def Media.recv_rtcp (m : Media) (ps : List RtcpPacket) : Media :=
  { m with rtp_session := ps.foldl RtpSession.recv_rtcp m.rtp_session }

/-- `Media::remote_payload_types` from `state/media.rs`: just the
negotiated codec payload type. -/
def Media.remote_payload_types (m : Media) : List Nat := [m.codec_pt]

/-! ## Pending changes (state/mod.rs) -/

/-- `PendingMedia` from `state/mod.rs`. -/
structure PendingMedia where
  id : Nat
  local_media_id : Nat
  media_type : MediaType
  mid : String
  direction : Direction
  use_avpf : Bool
  standalone_transport : Option Nat
  bundle_transport : Nat
deriving DecidableEq, Repr

/-- `PendingChange` from `state/mod.rs`. -/
inductive PendingChange where
  | addMedia (p : PendingMedia)
  | removeMedia (id : Nat)
  | changeDirection (id : Nat) (d : Direction)
deriving DecidableEq, Repr

/-- `PendingMedia::matches_answer` from `state/mod.rs`: the media type
must agree; an answer mid decides when present; otherwise the SDP protocol
of the standalone transport (if any), then of the bundle transport, must
equal the answer's. (Slotmap indexing of a dangling id would panic in the
source; the ids of a pending media are always live, see C6.) -/
def PendingMedia.matches_answer (pm : PendingMedia)
    (transports : SlotMap TransportEntry) (desc : MediaDescription) : Bool :=
  if pm.media_type ≠ desc.media.media_type then false
  else
    match desc.mid with
    | some answer_mid => pm.mid = answer_mid
    | none =>
      let standalone_ok : Bool :=
        match pm.standalone_transport with
        | some st =>
          match transports.get? st with
          | some e => e.typ.sdp_type pm.use_avpf = desc.media.proto
          | none => false
        | none => false
      if standalone_ok then true
      else
        match transports.get? pm.bundle_transport with
        | some e => e.typ.sdp_type pm.use_avpf = desc.media.proto
        | none => false

/-! ## SessionState (state/mod.rs) -/

/-- `SessionState` from `state/mod.rs`. The shared `transport_state`
(STUN server registry fanned out to ICE agents) is external and not
modelled; instants are Nat milliseconds. -/
structure SessionState where
  options : Options
  id : Nat
  version : Nat
  address : Nat
  next_pt : Nat
  local_media : SlotMap LocalMedia
  next_media_id : Nat
  state : List Media
  transports : SlotMap TransportEntry
  pending_changes : List PendingChange
  transport_changes : List TransportChange
  events : List Event
deriving DecidableEq, Repr

/-- `SessionState::new` (id and version are random u16 values in the
source, passed in here). -/
def SessionState.new (address : Nat) (options : Options) (id version : Nat) :
    SessionState :=
  { options, id, version, address
    next_pt := 96
    local_media := SlotMap.empty
    next_media_id := 0
    state := []
    transports := SlotMap.empty
    pending_changes := []
    transport_changes := []
    events := [] }

/-- `SessionState::add_stun_server` fans the server out to the ICE agents,
which are external; no modelled field changes. -/
def SessionState.add_stun_server (s : SessionState) (_ : SocketAddr) :
    SessionState := s

/-- `SessionState::has_media`. -/
def SessionState.has_media (s : SessionState) : Bool :=
  (!s.state.isEmpty) ||
    s.pending_changes.any (fun c => match c with
      | .addMedia _ => true
      | _ => false)

/-- The dynamic payload type assignment loop of `add_local_media`: a codec
without a static pt receives the counter value, the counter advances, and
the call fails as soon as the counter exceeds 127 (note the check runs
after the increment, so an assignment of pt 127 itself already fails the
call). Returns the rewritten codec list and the final counter. -/
def assignDynamicPts : List Codec → Nat → Option (List Codec × Nat)
  | [], pt => some ([], pt)
  | c :: rest, pt =>
    match c.pt with
    | some _ => (assignDynamicPts rest pt).map (fun r => (c :: r.1, r.2))
    | none =>
      let c2 := { c with pt := some pt }
      if pt + 1 > 127 then none
      else (assignDynamicPts rest (pt + 1)).map (fun r => (c2 :: r.1, r.2))

/-- Sorted insertion without duplicates, modelling the `BTreeSet<u32>` of
clock rates in `add_local_media` (ascending iteration, each rate once). -/
def btreeInsert (x : Nat) : List Nat → List Nat
  | [] => [x]
  | y :: rest =>
    if x < y then x :: y :: rest
    else if x = y then y :: rest
    else y :: btreeInsert x rest

/-- The clock rates of a codec list as the BTreeSet iterates them. -/
def clockRatesSorted (cs : List Codec) : List Nat :=
  cs.foldl (fun acc c => btreeInsert c.clock_rate acc) []

/-- The DTMF entry loop of `add_local_media`, as in the source: each clock
rate is paired with the current counter value and the counter is never
advanced (the source loop contains no increment, so all entries receive
the same payload type and its exhaustion check cannot fire once the
counter is at most 127). -/
def dtmfAssign (pt : Nat) : List Nat → Option (List (Nat × Nat))
  | [] => some []
  | cr :: rest =>
    if pt > 127 then none
    else (dtmfAssign pt rest).map (fun l => (pt, cr) :: l)

/-- `SessionState::add_local_media` from `state/mod.rs`. On a None return
the source has reset next_pt to its entry value and inserted nothing, so
the state is returned unchanged. -/
def SessionState.add_local_media (s : SessionState) (codecs : Codecs)
    (limit : Nat) (direction : Direction) : Option Nat × SessionState :=
  match assignDynamicPts codecs.codecs s.next_pt with
  | none => (none, s)
  | some (codecs2, pt2) =>
    let dtmfRes :=
      if codecs.allow_dtmf then dtmfAssign pt2 (clockRatesSorted codecs2)
      else some []
    match dtmfRes with
    | none => (none, s)
    | some dtmf =>
      let ins := s.local_media.insert
        { codecs := { codecs with codecs := codecs2 }
          limit
          use_count := 0
          direction := direction.toBools
          dtmf }
      (some ins.1, { s with next_pt := pt2, local_media := ins.2 })

/-- The `max()` over the existing transport types in `add_media`
(declaration order; the default applies to an empty map). -/
def maxTransportType (ts : SlotMap TransportEntry) (dflt : TransportType) :
    TransportType :=
  match ts.values.map TransportEntry.typ with
  | [] => dflt
  | t :: rest => rest.foldl (fun a b => if a.rank < b.rank then b else a) t

/-- `SessionState::add_media` from `state/mod.rs`: stages an AddMedia
pending change; under MaxCompat a fresh standalone transport builder is
always created, under MaxBundle a transport is created only if none of the
chosen type exists. Returns the new media id (None models the panic of
indexing a dangling local_media id). -/
def SessionState.add_media (s : SessionState) (local_media_id : Nat)
    (direction : Direction) : Option (Nat × SessionState) :=
  match s.local_media.get? local_media_id with
  | none => none
  | some lm =>
    let media_id := s.next_media_id
    let s1 := { s with next_media_id := s.next_media_id + 1 }
    let transport_type := maxTransportType s1.transports s1.options.offer_transport
    let bundle_transport_id :=
      (s1.transports.entries.find? (fun e => e.2.typ = transport_type)).map (·.1)
    let mkBuilder : SessionState → Nat × SessionState := fun st =>
      let id := st.transports.next_key
      let bn := TransportBuilder.new id st.transport_changes transport_type
        st.options.rtcp_mux_policy st.options.offer_ice
      let ins := st.transports.insert (.transportBuilder bn.1)
      (ins.1, { st with transports := ins.2, transport_changes := bn.2 })
    let r : (Option Nat × Nat) × SessionState :=
      match s1.options.bundle_policy with
      | .maxCompat =>
        let c := mkBuilder s1
        ((some c.1, bundle_transport_id.getD c.1), c.2)
      | .maxBundle =>
        match bundle_transport_id with
        | some existing => ((none, existing), s1)
        | none =>
          let c := mkBuilder s1
          ((none, c.1), c.2)
    let s2 := r.2
    some (media_id,
      { s2 with pending_changes := s2.pending_changes ++
          [.addMedia
            { id := media_id
              local_media_id
              media_type := lm.codecs.media_type
              mid := toString media_id
              direction
              use_avpf := s2.options.offer_avpf
              standalone_transport := r.1.1
              bundle_transport := r.1.2 }] })

/-- `SessionState::remove_media`: stages a RemoveMedia change only when
the id is in the live state, otherwise a silent no-op. -/
def SessionState.remove_media (s : SessionState) (media_id : Nat) :
    SessionState :=
  if s.state.any (fun m => m.id = media_id) then
    { s with pending_changes := s.pending_changes ++ [.removeMedia media_id] }
  else
    s

/-- `SessionState::update_media`: stages a ChangeDirection change only
when the id is in the live state, otherwise a silent no-op. -/
def SessionState.update_media (s : SessionState) (media_id : Nat)
    (new_direction : Direction) : SessionState :=
  if s.state.any (fun m => m.id = media_id) then
    { s with pending_changes := s.pending_changes ++
        [.changeDirection media_id new_direction] }
  else
    s

/-- `SessionState::transport_changes`: drains the pending transport
change list. -/
def SessionState.take_transport_changes (s : SessionState) :
    List TransportChange × SessionState :=
  (s.transport_changes, { s with transport_changes := [] })

/-- `SessionState::set_transport_ports` (the ip list only feeds ICE host
candidates, which are external). None models the slotmap indexing panic on
a dangling transport id. -/
def SessionState.set_transport_ports (s : SessionState) (transport_id : Nat)
    (_ip_addrs : List Nat) (rtp_port : Nat) (rtcp_port : Option Nat) :
    Option SessionState :=
  match s.transports.get? transport_id with
  | none => none
  | some e =>
    let e2 : TransportEntry :=
      match e with
      | .transport t =>
        .transport { t with local_rtp_port := some rtp_port, local_rtcp_port := rtcp_port }
      | .transportBuilder b =>
        .transportBuilder { b with local_rtp_port := some rtp_port, local_rtcp_port := rtcp_port }
    some { s with transports := s.transports.setVal transport_id e2 }


/-- Index of the first element satisfying the predicate (Rust
`Iterator::position`). -/
def position? {α : Type} (p : α → Bool) : List α → Option Nat
  | [] => none
  | a :: rest => if p a then some 0 else (position? p rest).map (· + 1)

/-- In-place update of a list element. -/
def listUpdateAt {α : Type} : List α → Nat → (α → α) → List α
  | [], _, _ => []
  | a :: rest, 0, f => f a :: rest
  | a :: rest, i + 1, f => a :: listUpdateAt rest i f

/-- The per-media body of `SessionState::poll`: each media is polled
against its (built) transport; a missing or still-building transport is
the `unwrap_mut` panic of the source. -/
def pollMediaList (now : Nat) :
    List Media → SlotMap TransportEntry → List Event →
    Option (List Media × SlotMap TransportEntry × List Event)
  | [], ts, evs => some ([], ts, evs)
  | m :: rest, ts, evs =>
    match ts.get? m.transport with
    | some (.transport t) =>
      let r := m.poll now t
      let ts2 := ts.setVal m.transport (.transport r.2.1)
      (pollMediaList now rest ts2 (evs ++ r.2.2)).map
        (fun rr => (r.1 :: rr.1, rr.2))
    | _ => none

/-- `SessionState::poll` from `state/mod.rs`. The transports' own poll only
drives ICE/DTLS timers (external collaborators) and does not change the
modelled fields. -/
def SessionState.poll (s : SessionState) (now : Nat) : Option SessionState :=
  match pollMediaList now s.state s.transports [] with
  | none => none
  | some (st2, ts2, evs) =>
    some { s with state := st2, transports := ts2, events := s.events ++ evs }

/-- One transport entry's event-queue pop (the per-entry body of
`SessionState::pop_event`). -/
def entryPopEvent : TransportEntry → Option TransportEvent × TransportEntry
  | .transport t =>
    match t.events with
    | [] => (none, .transport t)
    | ev :: evrest => (some ev, .transport { t with events := evrest })
  | .transportBuilder b =>
    match b.events with
    | [] => (none, .transportBuilder b)
    | ev :: evrest => (some ev, .transportBuilder { b with events := evrest })

/-- The transport-event scan of `SessionState::pop_event`: the first
transport (in iteration order) holding a queued event yields it. -/
def popTransportEvent : List (Nat × TransportEntry) →
    Option (Nat × TransportEvent × List (Nat × TransportEntry))
  | [] => none
  | (k, e) :: rest =>
    match (entryPopEvent e).1 with
    | some ev => some (k, ev, (k, (entryPopEvent e).2) :: rest)
    | none =>
      (popTransportEvent rest).map (fun r => (r.1, r.2.1, (k, e) :: r.2.2))

/-- `SessionState::pop_event` from `state/mod.rs`: transport events first
(translated to session events), then the session queue. -/
def SessionState.pop_event (s : SessionState) : Option Event × SessionState :=
  match popTransportEvent s.transports.entries with
  | some (tid, ev, entries2) =>
    let e :=
      match ev with
      | .connectionState o n => Event.transportConnectionState tid o n
      | .sendData c d tgt => Event.sendData tid c d tgt
    (some e, { s with transports := { s.transports with entries := entries2 } })
  | none =>
    match s.events with
    | [] => (none, s)
    | e :: rest => (some e, { s with events := rest })

/-- An inbound datagram: the socket component it arrived on, its raw
bytes, and the external rtp crate's parse of it as RTP and as an RTCP
compound (the parsers live in an external crate; a `none` view models a
parse failure). -/
structure ReceivedPkt where
  component : Component
  data : List Nat
  rtp_view : Option RtpPacket
  rtcp_view : Option (List RtcpPacket)
deriving DecidableEq, Repr

/-- Demultiplexed datagram classes handed back by `Transport::receive`. -/
inductive ReceivedPacket where
  | rtp (p : RtpPacket)
  | rtcp (view : Option (List RtcpPacket))
  | ignore
deriving DecidableEq, Repr

/-- Modelled from the spec: `Transport::receive` demultiplexes per spec
section 4.2: first byte 0-3 is STUN (to the external ICE agent), 20-63 on
a DTLS-SRTP transport is a DTLS record, 128-191 is RTP or RTCP - under
rtcp-mux the payload-type field of the second byte decides (64..95 is
RTCP), otherwise the receiving socket does; anything else is ignored. -/
def Transport.receive (t : Transport) (pkt : ReceivedPkt) : ReceivedPacket :=
  match pkt.data.head? with
  | none => .ignore
  | some b =>
    if b ≤ 3 then .ignore
    else if 20 ≤ b ∧ b ≤ 63 ∧ t.typ = .dtlsSrtp then .ignore
    else if 128 ≤ b ∧ b ≤ 191 then
      let isRtcp : Bool :=
        if t.rtcp_mux then
          match pkt.data[1]? with
          | some b2 => 64 ≤ b2 % 128 ∧ b2 % 128 ≤ 95
          | none => false
        else
          pkt.component = .rtcp
      if isRtcp then .rtcp pkt.rtcp_view
      else
        match pkt.rtp_view with
        | some p => .rtp p
        | none => .ignore
    else
      .ignore

/-- Modelled from the spec: `TransportBuilder::receive` holds the packet
for the pending ICE/DTLS substacks (external); no modelled field
changes. -/
def TransportBuilder.receive (b : TransportBuilder) (_ : ReceivedPkt) :
    TransportBuilder := b

/-- The sender SSRC by which `SessionState::receive` routes a parsed RTCP
compound: SR/RR and feedback carry one; App, Bye, Sdes and unknown
packets are ignored. -/
def rtcpRouteSsrc : RtcpPacket → Option Nat
  | .rr ssrc => some ssrc
  | .sr ssrc => some ssrc
  | .transportFeedback ssrc => some ssrc
  | .payloadFeedback ssrc => some ssrc
  | _ => none

/-- `SessionState::receive` from `state/mod.rs`: look the transport up
(panic on a dangling id), let it demultiplex; route RTP by mid first and
payload type second among the media on that transport, dropping unmatched
packets; parse RTCP compounds, route by the first packet's sender SSRC to
the media that has recorded that remote SSRC. -/
def SessionState.receive (s : SessionState) (transport_id : Nat)
    (pkt : ReceivedPkt) : Option SessionState :=
  match s.transports.get? transport_id with
  | none => none
  | some (.transportBuilder b) =>
    some { s with transports :=
      s.transports.setVal transport_id (.transportBuilder (b.receive pkt)) }
  | some (.transport t) =>
    match t.receive pkt with
    | .rtp packet =>
      let byMid := position? (fun m =>
        m.transport = transport_id &&
          (match m.mid, packet.ext_mid with
           | some a, some b => a = b
           | _, _ => false)) s.state
      let idx :=
        match byMid with
        | some i => some i
        | none =>
          position? (fun m =>
            m.transport = transport_id &&
              m.remote_payload_types.contains packet.pt) s.state
      match idx with
      | some i =>
        some { s with state := listUpdateAt s.state i (fun m => m.recv_rtp packet) }
      | none => some s
    | .rtcp view =>
      match view with
      | none => some s
      | some packets =>
        match packets with
        | [] => some s
        | p0 :: _ =>
          match rtcpRouteSsrc p0 with
          | none => some s
          | some ssrc =>
            match position? (fun m => m.rtp_session.remote_ssrcs.contains ssrc) s.state with
            | none => some s
            | some i =>
              some { s with state := listUpdateAt s.state i (fun m => m.recv_rtcp packets) }
    | .ignore => some s

/-- `SessionState::send_rtp` from `state/mod.rs`: the media lookup is
followed by `.unwrap()` - an unknown media id panics (modelled none), as
does a missing or still-building transport (`unwrap_mut`). -/
def SessionState.send_rtp (s : SessionState) (media_id : Nat)
    (packet : RtpPacket) : Option SessionState :=
  match position? (fun m => m.id = media_id) s.state with
  | none => none
  | some i =>
    match s.state[i]? with
    | none => none
    | some m =>
      match (s.transports.get? m.transport).bind TransportEntry.unwrapBuilt with
      | none => none
      | some t =>
        let r := m.send_rtp t packet
        some { s with
          state := listUpdateAt s.state i (fun _ => r.1)
          transports := s.transports.setVal m.transport (.transport r.2) }

/-! ## SDP negotiation (state/sdp.rs) -/

/-- `SdpResponseEntry` from `state/sdp.rs`. -/
inductive SdpResponseEntry where
  | active (media_id : Nat)
  | rejected (media_type : MediaType) (mid : Option String)
deriving DecidableEq, Repr

/-- `is_avpf` from `state/sdp.rs`. -/
def is_avpf : TransportProtocol → Bool
  | .rtpAvpf => true
  | .rtpSavpf => true
  | .udpTlsRtpSavpf => true
  | .unspecified => false
  | .rtpAvp => false
  | .rtpSavp => false
  | .udpTlsRtpSavp => false
  | .other _ => false

/-- `SessionState::update_active_media` from `state/sdp.rs`: when the new
direction differs, a MediaChanged event is emitted and the direction set.
(The source's .expect on the media lookup cannot fire: every caller passes
a present id; the model leaves the state unchanged in that case.) -/
def SessionState.update_active_media (s : SessionState)
    (requested : DirectionBools) (media_id : Nat) : SessionState :=
  match position? (fun m => m.id = media_id) s.state with
  | none => s
  | some i =>
    match s.state[i]? with
    | none => s
    | some m =>
      if m.direction.toDirection ≠ requested.toDirection then
        { s with
          events := s.events ++
            [.mediaChanged ⟨media_id, m.direction.toDirection, requested.toDirection⟩]
          state := listUpdateAt s.state i (fun mm => { mm with direction := requested }) }
      else
        s

/-- `SessionState::remove_unused_transports` from `state/sdp.rs`: retain
exactly the transports referenced by a live media or a pending AddMedia
(either as bundle or standalone transport), queueing a Remove change for
each dropped one. -/
def SessionState.remove_unused_transports (s : SessionState) : SessionState :=
  let keep : Nat → TransportEntry → Bool := fun id _ =>
    s.state.any (fun m => m.transport = id) ||
      s.pending_changes.any (fun c =>
        match c with
        | .addMedia am =>
          am.bundle_transport = id || am.standalone_transport = some id
        | _ => false)
  let removedIds := (s.transports.entries.filter (fun e => !keep e.1 e.2)).map (·.1)
  { s with
    transports := s.transports.retain keep
    transport_changes := s.transport_changes ++ removedIds.map .remove }

/-- `SessionState::find_bundled_transport` from `state/sdp.rs`. -/
def SessionState.find_bundled_transport (s : SessionState)
    (new_state : List Media) (offer : SessionDescription) (mid : String) :
    Option Nat :=
  match offer.group.find? (fun g => g.typ = "BUNDLE" && g.mids.contains mid) with
  | none => none
  | some group =>
    (new_state ++ s.state).findSome? (fun media =>
      match media.mid with
      | none => none
      | some mmid =>
        if group.mids.any (fun v => v = mmid) then some media.transport
        else none)

/-- `SessionState::get_or_create_transport` from `state/sdp.rs`: BUNDLE
reuse first, then a fresh transport from the offer; an unsupported
transport yields no id and the m-line is declined. (The io::Error path of
the source cannot arise in the model.) -/
def SessionState.get_or_create_transport (s : SessionState)
    (new_state : List Media) (sess : SessionDescription)
    (desc : MediaDescription) : SessionState × Option Nat :=
  match desc.mid.bind (fun mid => s.find_bundled_transport new_state sess mid) with
  | some id => (s, some id)
  | none =>
    let id := s.transports.next_key
    match Transport.create_from_offer id s.transport_changes sess desc with
    | none => (s, none)
    | some (t, changes2) =>
      let ins := s.transports.insert (.transport t)
      ({ s with transports := ins.2, transport_changes := changes2 }, some ins.1)

/-- First local media whose `maybe_use_for_offer` accepts the remote
description (the `find_map` in `receive_sdp_offer`), with the updated
entry. -/
def findLocalMediaForOffer :
    List (Nat × LocalMedia) → MediaDescription →
    Option (Nat × ChosenCodec × LocalMedia)
  | [], _ => none
  | (k, lm) :: rest, desc =>
    match lm.maybe_use_for_offer desc with
    | some (cfg, lm2) => some (k, cfg, lm2)
    | none => findLocalMediaForOffer rest desc

/-- Accumulator of the m-line loop in `receive_sdp_offer`. -/
structure OfferAccum where
  session : SessionState
  new_state : List Media
  response : List SdpResponseEntry
deriving DecidableEq, Repr

/-- One iteration of the m-line loop of `receive_sdp_offer`: reuse the
first matching live media (update its direction, move it to the new
state), otherwise choose a local media, obtain a transport (BUNDLE reuse
or creation) and create the media, rejecting the m-line when either
choice fails. -/
def receiveSdpOfferMLine (now : Nat) (ssrcOf : Nat → Nat)
    (offer : SessionDescription) (acc : OfferAccum) (desc : MediaDescription) :
    OfferAccum :=
  let requested : DirectionBools := (desc.direction.flipped).toBools
  match position? (fun m => m.matches acc.session.transports desc) acc.session.state with
  | some i =>
    match acc.session.state[i]? with
    | none => acc
    | some m0 =>
      let s2 := acc.session.update_active_media requested m0.id
      match s2.state[i]? with
      | none => acc
      | some m1 =>
        { session := { s2 with state := s2.state.eraseIdx i }
          new_state := acc.new_state ++ [m1]
          response := acc.response ++ [.active m1.id] }
  | none =>
    match findLocalMediaForOffer acc.session.local_media.entries desc with
    | none =>
      { acc with response := acc.response ++
          [.rejected desc.media.media_type desc.mid] }
    | some (local_media_id, chosen, lm2) =>
      let s2 := { acc.session with
        local_media := acc.session.local_media.setVal local_media_id lm2 }
      let g := s2.get_or_create_transport acc.new_state offer desc
      match g.2 with
      | none =>
        { acc with
          session := g.1
          response := acc.response ++ [.rejected desc.media.media_type desc.mid] }
      | some transport =>
        let s3 := g.1
        let recv_fmtp :=
          (desc.fmtp.find? (fun f => f.format = chosen.remote_pt)).map (·.params)
        let dtmf := chosen.dtmf.map (fun pt =>
          NegotiatedDtmf.mk pt
            ((desc.fmtp.find? (fun f => f.format = pt)).map (·.params)))
        let media_id := s3.next_media_id
        let ev := Event.mediaAdded
          { id := media_id
            transport_id := transport
            local_media_id
            direction := chosen.direction.toDirection
            codec :=
              { send_pt := chosen.remote_pt
                recv_pt := chosen.remote_pt
                name := chosen.codec.name
                clock_rate := chosen.codec.clock_rate
                channels := chosen.codec.channels
                send_fmtp := chosen.codec.fmtp
                recv_fmtp
                dtmf } }
        { session := { s3 with
            next_media_id := s3.next_media_id + 1
            events := s3.events ++ [ev] }
          new_state := acc.new_state ++
            [Media.new media_id local_media_id desc.media.media_type desc.mid
              chosen.direction (is_avpf desc.media.proto) transport
              chosen.remote_pt chosen.codec chosen.dtmf now (ssrcOf media_id)]
          response := acc.response ++ [.active media_id] }

/-- The per-removed-media body of receive_sdp_offer's cleanup: decrement
the owning LocalMedia use count (u32 in the source; Nat subtraction here)
and emit MediaRemoved. -/
def retireMedia (st : SessionState) (media : Media) : SessionState :=
  { st with
    local_media := st.local_media.modifyVal media.local_media_id
      (fun lm => { lm with use_count := lm.use_count - 1 })
    events := st.events ++ [.mediaRemoved media.id] }

/-- `SessionState::receive_sdp_offer` from `state/sdp.rs`: process every
m-line, install the new state, emit MediaRemoved (and decrement the local
media use count) for every previously live media that was not matched,
then garbage-collect the transports. -/
def SessionState.receive_sdp_offer (s : SessionState)
    (offer : SessionDescription) (now : Nat) (ssrcOf : Nat → Nat) :
    List SdpResponseEntry × SessionState :=
  let accN := offer.media_descriptions.foldl
    (receiveSdpOfferMLine now ssrcOf offer) ⟨s, [], []⟩
  let removed := accN.session.state
  let s2 := { accN.session with state := accN.new_state }
  let s3 := removed.foldl retireMedia s2
  (accN.response, s3.remove_unused_transports)

/-- `SessionState::media_description_for_active` from `state/sdp.rs`. None
models the panics on a still-building transport or an unset RTP port (the
documented caller precondition). The rtpmap of an active media carries no
channel parameter (the source passes Default::default()). -/
def SessionState.media_description_for_active (s : SessionState)
    (media : Media) (override_direction : Option Direction) :
    Option MediaDescription :=
  let codec := media.codec
  let codec_pt := media.codec_pt
  match (s.transports.get? media.transport).bind TransportEntry.unwrapBuilt with
  | none => none
  | some transport =>
    match transport.local_rtp_port with
    | none => none
    | some port =>
      match s.local_media.get? media.local_media_id with
      | none => none
      | some lm =>
        some
          { media :=
              { media_type := lm.codecs.media_type
                port
                proto := transport.typ.sdp_type media.avpf
                fmts := [codec_pt] }
            direction := override_direction.getD media.direction.toDirection
            rtcp := transport.local_rtcp_port.map (fun p => ⟨p⟩)
            rtcp_mux := transport.remote_rtp_address = transport.remote_rtcp_address
            mid := media.mid
            rtpmap := [⟨codec_pt, codec.name, codec.clock_rate, none⟩]
            fmtp := (codec.fmtp.map (fun p => Fmtp.mk codec_pt p)).toList }

/-- Group accumulation of `build_bundle_groups` (the source uses a HashMap
whose iteration order is unspecified; first-encounter order here - no
claim depends on group order). -/
def addToGroups (groups : List (Nat × List String)) (tid : Nat) (mid : String) :
    List (Nat × List String) :=
  if groups.any (fun g => g.1 = tid) then
    groups.map (fun g => if g.1 = tid then (g.1, g.2 ++ [mid]) else g)
  else
    groups ++ [(tid, [mid])]

/-- `SessionState::build_bundle_groups` from `state/sdp.rs`. -/
def SessionState.build_bundle_groups (s : SessionState)
    (include_pending_changes : Bool) : List Group :=
  let g1 := s.state.foldl
    (fun acc m =>
      match m.mid with
      | some mid => addToGroups acc m.transport mid
      | none => acc) []
  let g2 :=
    if include_pending_changes then
      s.pending_changes.foldl
        (fun acc c =>
          match c with
          | .addMedia pm => addToGroups acc pm.bundle_transport pm.mid
          | _ => acc) g1
    else g1
  (g2.filter (fun g => !g.2.isEmpty)).map (fun g => ⟨"BUNDLE", g.2⟩)

/-- The m-lines for the live media in `create_sdp_offer`. The inner loop
over pending changes computes the direction override; its RemoveMedia arm
executes a `continue` that (having no label) targets that inner loop
itself and therefore has no effect - media staged for removal are NOT
skipped and still receive an m-line, exactly as the source behaves. -/
def offerActiveDescs (s : SessionState) : List Media → Option (List MediaDescription)
  | [] => some []
  | media :: rest =>
    let override_direction := s.pending_changes.foldl
      (fun acc c =>
        match c with
        | .changeDirection id d => if media.id = id then some d else acc
        | _ => acc) none
    match s.media_description_for_active media override_direction with
    | none => none
    | some d => (offerActiveDescs s rest).map (d :: ·)

/-- The fmts, rtpmap and fmtp lists a pending media's codecs contribute to
its offer m-line; a codec without an assigned pt is the source's .expect
panic. -/
def codecFmtsRtpmaps : List Codec → Option (List Nat × List RtpMap × List Fmtp)
  | [] => some ([], [], [])
  | c :: rest =>
    match c.pt with
    | none => none
    | some pt =>
      (codecFmtsRtpmaps rest).map (fun r =>
        ( pt :: r.1
        , RtpMap.mk pt c.name c.clock_rate c.channels :: r.2.1
        , match c.fmtp with
          | some p => Fmtp.mk pt p :: r.2.2
          | none => r.2.2 ))

/-- The m-line a pending AddMedia contributes to `create_sdp_offer`:
codecs plus telephone-event entries, the standalone (else bundle)
transport's ports, rtcp-mux always offered. -/
def offerPendingDesc (s : SessionState) (pm : PendingMedia) :
    Option MediaDescription :=
  match s.local_media.get? pm.local_media_id with
  | none => none
  | some lm =>
    match s.transports.get? (pm.standalone_transport.getD pm.bundle_transport) with
    | none => none
    | some transport =>
      let ports :=
        match transport with
        | .transport t => (t.local_rtp_port, t.local_rtcp_port)
        | .transportBuilder b => (b.local_rtp_port, b.local_rtcp_port)
      match ports.1 with
      | none => none
      | some rtp_port =>
        match codecFmtsRtpmaps lm.codecs.codecs with
        | none => none
        | some (fmts, rtpmap, fmtp) =>
          some
            { media :=
                { media_type := lm.codecs.media_type
                  port := rtp_port
                  proto := transport.typ.sdp_type pm.use_avpf
                  fmts := fmts ++ lm.dtmf.map (·.1) }
              direction := pm.direction
              rtcp := ports.2.map (fun p => ⟨p⟩)
              rtcp_mux := true
              mid := some pm.mid
              rtpmap := rtpmap ++
                lm.dtmf.map (fun p => ⟨p.1, "telephone-event", p.2, none⟩)
              fmtp }

/-- The m-lines of all pending AddMedia changes, in order. -/
def offerPendingDescs (s : SessionState) :
    List PendingChange → Option (List MediaDescription)
  | [] => some []
  | .addMedia pm :: rest =>
    match offerPendingDesc s pm with
    | none => none
    | some d => (offerPendingDescs s rest).map (d :: ·)
  | _ :: rest => offerPendingDescs s rest

/-- `SessionState::create_sdp_offer` from `state/sdp.rs`: every live media
(including, as the source does, those staged for removal) followed by
every pending AddMedia, with session-level BUNDLE groups including pending
changes. None models the port/transport panics. -/
def SessionState.create_sdp_offer (s : SessionState) : Option SessionDescription :=
  match offerActiveDescs s s.state with
  | none => none
  | some active =>
    match offerPendingDescs s s.pending_changes with
    | none => none
    | some pendingDescs =>
      some
        { origin := ⟨s.id, s.version, s.address⟩
          connection := some s.address
          direction := .sendRecv
          group := s.build_bundle_groups true
          media_descriptions := active ++ pendingDescs }

/-- One iteration of the m-line loop of `receive_sdp_answer`: rejected
(Inactive) answers are skipped; a live media not staged for removal and
matching the description gets its direction updated; else the first
matching pending AddMedia is finalized - the transport is the bundle one
iff the answer's BUNDLE groups list the pending mid, and otherwise the
standalone transport, whose absence (bundle policy MaxBundle) is the
source's `.unwrap()` panic (None here); building the transport, choosing
the codec from the answer (its `.unwrap()` likewise None on failure) and
pushing the new media conclude the match; an unmatched m-line is only
logged. -/
def SessionState.receive_sdp_answer_mline (s : SessionState)
    (answer : SessionDescription) (desc : MediaDescription)
    (now : Nat) (ssrcOf : Nat → Nat) : Option SessionState :=
  if desc.direction = .inactive then some s
  else
    let requested : DirectionBools := (desc.direction.flipped).toBools
    let pendingRemoval : Nat → Bool := fun id =>
      s.pending_changes.any (fun c =>
        match c with
        | .removeMedia rid => rid = id
        | _ => false)
    match s.state.find? (fun m => !pendingRemoval m.id && m.matches s.transports desc) with
    | some m => some (s.update_active_media requested m.id)
    | none =>
      match position? (fun c =>
          match c with
          | .addMedia pm => pm.matches_answer s.transports desc
          | _ => false) s.pending_changes with
      | none => some s
      | some i =>
        match s.pending_changes[i]? with
        | some (.addMedia pm) =>
          let is_bundled := answer.group.any (fun g =>
            g.typ = "BUNDLE" && g.mids.any (fun m => m = pm.mid))
          let tid? := if is_bundled then some pm.bundle_transport else pm.standalone_transport
          match tid? with
          | none => none
          | some tid =>
            match s.transports.get? tid with
            | none => none
            | some entry =>
              let built : Transport × List TransportChange :=
                match entry with
                | .transportBuilder b =>
                  b.build_from_answer tid s.transport_changes answer desc
                | .transport t => (t, s.transport_changes)
              let s2 := { s with
                transports := s.transports.setVal tid (.transport built.1)
                transport_changes := built.2 }
              match s2.local_media.get? pm.local_media_id with
              | none => none
              | some lm =>
                match lm.choose_codec_from_answer desc with
                | none => none
                | some (chosen, lm2) =>
                  let recv_fmtp :=
                    (desc.fmtp.find? (fun f => f.format = chosen.remote_pt)).map (·.params)
                  let dtmf := chosen.dtmf.map (fun pt =>
                    NegotiatedDtmf.mk pt
                      ((desc.fmtp.find? (fun f => f.format = pt)).map (·.params)))
                  let ev := Event.mediaAdded
                    { id := pm.id
                      transport_id := tid
                      local_media_id := pm.local_media_id
                      direction := chosen.direction.toDirection
                      codec :=
                        { send_pt := chosen.remote_pt
                          recv_pt := chosen.remote_pt
                          name := chosen.codec.name
                          clock_rate := chosen.codec.clock_rate
                          channels := chosen.codec.channels
                          send_fmtp := chosen.codec.fmtp
                          recv_fmtp
                          dtmf } }
                  some { s2 with
                    local_media := s2.local_media.setVal pm.local_media_id lm2
                    events := s2.events ++ [ev]
                    state := s2.state ++
                      [Media.new pm.id pm.local_media_id pm.media_type desc.mid
                        chosen.direction pm.use_avpf tid chosen.remote_pt
                        chosen.codec chosen.dtmf now (ssrcOf pm.id)]
                    pending_changes := s2.pending_changes.eraseIdx i }
        | _ => some s

/-- The m-line loop of `receive_sdp_answer`. -/
def answerMLines (answer : SessionDescription) (now : Nat) (ssrcOf : Nat → Nat) :
    List MediaDescription → SessionState → Option SessionState
  | [], s => some s
  | d :: rest, s =>
    match s.receive_sdp_answer_mline answer d now ssrcOf with
    | none => none
    | some s2 => answerMLines answer now ssrcOf rest s2

/-- One staged RemoveMedia applied to the live state (the retain with its
MediaRemoved event in `receive_sdp_answer`). -/
def applyRemoveMedia (st : SessionState) (rid : Nat) : SessionState :=
  { st with
    state := st.state.filter (fun m => m.id ≠ rid)
    events := st.events ++
      ((st.state.filter (fun m => m.id = rid)).map (fun m => Event.mediaRemoved m.id)) }

/-- `SessionState::receive_sdp_answer` from `state/sdp.rs`: process every
m-line, then drain ALL pending changes (unmatched AddMedia and
ChangeDirection entries are discarded with the take), apply the staged
removals (emitting MediaRemoved), and garbage-collect the transports. -/
def SessionState.receive_sdp_answer (s : SessionState)
    (answer : SessionDescription) (now : Nat) (ssrcOf : Nat → Nat) :
    Option SessionState :=
  match answerMLines answer now ssrcOf answer.media_descriptions s with
  | none => none
  | some s2 =>
    let removals := s2.pending_changes.filterMap (fun c =>
      match c with
      | .removeMedia id => some id
      | _ => none)
    let s3 := { s2 with pending_changes := [] }
    let s4 := removals.foldl applyRemoveMedia s3
    some s4.remove_unused_transports

/-! ## List helper lemmas -/

lemma position?_none_iff {α : Type} (p : α → Bool) :
    ∀ l : List α, position? p l = none ↔ ∀ a ∈ l, p a = false := by
  intro l
  induction l with
  | nil => simp [position?]
  | cons a rest ih =>
    by_cases h : p a
    · simp [position?, h]
    · simp [position?, h, ih]

lemma position?_some {α : Type} (p : α → Bool) :
    ∀ (l : List α) (i : Nat), position? p l = some i →
      ∃ a, l[i]? = some a ∧ p a = true ∧
        ∀ j, j < i → ∀ b, l[j]? = some b → p b = false := by
  intro l
  induction l with
  | nil => intro i h; simp [position?] at h
  | cons a rest ih =>
    intro i h
    by_cases hp : p a
    · simp [position?, hp] at h
      subst h
      exact ⟨a, by simp, hp, fun j hj => by omega⟩
    · simp [position?, hp] at h
      obtain ⟨i2, hi2, hadd⟩ := h
      obtain ⟨b, hb, hpb, hprev⟩ := ih i2 hi2
      refine ⟨b, ?_, hpb, ?_⟩
      · rw [← hadd]; simpa using hb
      · intro j hj c hc
        cases j with
        | zero =>
          simp at hc
          rw [← hc]
          simp [hp]
        | succ j2 =>
          simp at hc
          exact hprev j2 (by omega) c hc

lemma mem_of_getElemOpt {α : Type} :
    ∀ (l : List α) (i : Nat) (a : α), l[i]? = some a → a ∈ l := by
  intro l
  induction l with
  | nil => intro i a h; simp at h
  | cons x rest ih =>
    intro i a h
    cases i with
    | zero => simp at h; simp [h]
    | succ j =>
      simp at h
      exact List.mem_cons_of_mem x (ih j a h)

lemma position?_id_of_nodup (l : List Media) (i : Nat) (m : Media)
    (hn : (l.map Media.id).Nodup) (hg : l[i]? = some m) :
    position? (fun x => x.id = m.id) l = some i := by
  induction l generalizing i with
  | nil => simp at hg
  | cons a rest ih =>
    rw [List.map_cons, List.nodup_cons] at hn
    cases i with
    | zero =>
      simp at hg
      subst hg
      simp [position?]
    | succ j =>
      simp at hg
      have hmem : m ∈ rest := mem_of_getElemOpt rest j m hg
      have hne : a.id ≠ m.id := by
        intro he
        exact hn.1 (he ▸ List.mem_map_of_mem Media.id hmem)
      rw [position?]
      rw [if_neg (by simp [hne]), ih j hn.2 hg]
      rfl

lemma eraseIdx_listUpdateAt {α : Type} :
    ∀ (l : List α) (i : Nat) (f : α → α),
      (listUpdateAt l i f).eraseIdx i = l.eraseIdx i := by
  intro l
  induction l with
  | nil => intro i f; cases i <;> rfl
  | cons a rest ih =>
    intro i f
    cases i with
    | zero => rfl
    | succ j => simp [listUpdateAt, List.eraseIdx, ih]

lemma listUpdateAt_getElem? {α : Type} :
    ∀ (l : List α) (i : Nat) (f : α → α),
      (listUpdateAt l i f)[i]? = (l[i]?).map f := by
  intro l
  induction l with
  | nil => intro i f; cases i <;> rfl
  | cons a rest ih =>
    intro i f
    cases i with
    | zero => simp [listUpdateAt]
    | succ j => simpa [listUpdateAt] using ih j f

lemma toDirection_inj :
    ∀ a b : DirectionBools, a.toDirection = b.toDirection → a = b := by
  intro a b h
  rcases a with ⟨as, ar⟩
  rcases b with ⟨bs, br⟩
  cases as <;> cases ar <;> cases bs <;> cases br <;>
    simp_all [DirectionBools.toDirection]

/-! ## C7: RTCP cadence -/

/-- C7: the RTCP interval is 1 second for video and 5 seconds for every
other media type; a fresh Media schedules its first RTCP tick 5 seconds
after construction; a poll whose time has reached the tick advances the
tick by exactly one interval whether or not a report goes out, and the
report goes out exactly when the owning transport is Connected (otherwise
nothing is sent and there is no catch-up); a poll before the tick changes
nothing. Times are in milliseconds. -/
theorem c7_media_rtcp_cadence (media_type : MediaType) (id lmid : Nat)
    (mid : Option String) (dir : DirectionBools) (avpf : Bool)
    (tid pt : Nat) (codec : Codec) (dtmf : Option Nat) (now ssrc : Nat)
    (m : Media) (t : Transport) (pollNow : Nat) :
    (rtcpIntervalOf .video = 1000 ∧
      (media_type ≠ .video → rtcpIntervalOf media_type = 5000)) ∧
    ((Media.new id lmid media_type mid dir avpf tid pt codec dtmf now ssrc).next_rtcp
        = now + 5000 ∧
     (Media.new id lmid media_type mid dir avpf tid pt codec dtmf now ssrc).rtcp_interval
        = rtcpIntervalOf media_type) ∧
    (m.next_rtcp ≤ pollNow →
      (m.poll pollNow t).1.next_rtcp = m.next_rtcp + m.rtcp_interval ∧
      (t.connection_state ≠ .connected → (m.poll pollNow t).2.1 = t) ∧
      (t.connection_state = .connected →
        (m.poll pollNow t).2.1.events = t.events ++
          [.sendData .rtcp (.rtcp ((m.rtp_session.pop_rtp).2.write_rtcp_report))
            t.remote_rtcp_address])) ∧
    (pollNow < m.next_rtcp →
      (m.poll pollNow t).1.next_rtcp = m.next_rtcp ∧
      (m.poll pollNow t).2.1 = t) := by
  refine ⟨⟨rfl, ?_⟩, ⟨rfl, rfl⟩, ?_, ?_⟩
  · intro h
    cases media_type with
    | audio => rfl
    | video => exact absurd rfl h
    | app => rfl
  · intro h
    by_cases hc : t.connection_state = TransportConnectionState.connected
    · refine ⟨?_, ?_, ?_⟩
      · simp [Media.poll, h, hc, Transport.send_rtcp]
      · intro hnc; exact absurd hc hnc
      · intro _; simp [Media.poll, h, hc, Transport.send_rtcp]
    · refine ⟨?_, ?_, ?_⟩
      · simp [Media.poll, h, hc]
      · intro _; simp [Media.poll, h, hc]
      · intro hcc; exact absurd hcc hc
  · intro h
    have hnle : ¬ (m.next_rtcp ≤ pollNow) := by omega
    exact ⟨by simp [Media.poll, hnle], by simp [Media.poll, hnle]⟩

/-- Witness data for the C7 theorem. -/
def c7Media : Media :=
  Media.new 0 0 .audio none ⟨true, true⟩ false 0 8 ⟨"PCMA", 8000, none, some 8, none⟩ none 0 42

/-- Witness transport for the C7 theorem (Connected). -/
def c7Transport : Transport :=
  ⟨.rtp, some 4000, none, ⟨20, 5000⟩, ⟨20, 5000⟩, true, .connected, []⟩

/-- Witness for c7_media_rtcp_cadence: a concrete audio media polled at
6000 ms against a connected transport advances its tick from 5000 to 10000
and sends one RTCP report. -/
theorem c7_media_rtcp_cadence_witness :
    c7Media.next_rtcp = 5000 ∧
    (c7Media.poll 6000 c7Transport).1.next_rtcp = c7Media.next_rtcp + c7Media.rtcp_interval ∧
    (c7Media.poll 6000 c7Transport).2.1.events = c7Transport.events ++
      [.sendData .rtcp (.rtcp ((c7Media.rtp_session.pop_rtp).2.write_rtcp_report))
        c7Transport.remote_rtcp_address] := by
  have h := c7_media_rtcp_cadence .audio 0 0 none ⟨true, true⟩ false 0 8
    ⟨"PCMA", 8000, none, some 8, none⟩ none 0 42 c7Media c7Transport 6000
  exact ⟨rfl, (h.2.2.1 (by decide)).1, (h.2.2.1 (by decide)).2.2 rfl⟩

/-! ## C10: send_rtp on an unknown media id -/

/-- C10: with a media id that is not in the live state, send_rtp panics
(the source unwraps the failed lookup; none here), while remove_media and
update_media are silent no-ops. -/
theorem c10_send_rtp_unknown_media (s : SessionState) (media_id : Nat)
    (packet : RtpPacket) (d : Direction)
    (h : ∀ m ∈ s.state, m.id ≠ media_id) :
    s.send_rtp media_id packet = none ∧
    s.remove_media media_id = s ∧
    s.update_media media_id d = s := by
  have hpos : position? (fun m => m.id = media_id) s.state = none :=
    (position?_none_iff _ _).mpr (fun m hm => by simp [h m hm])
  have hany : s.state.any (fun m => m.id = media_id) = false := by
    rw [List.any_eq_false]
    intro m hm
    simp [h m hm]
  refine ⟨?_, ?_, ?_⟩
  · unfold SessionState.send_rtp
    rw [hpos]
  · unfold SessionState.remove_media
    simp [hany]
  · unfold SessionState.update_media
    simp [hany]

/-- Witness session for C10 (fresh, no media). -/
def c10Session : SessionState :=
  SessionState.new 10 ⟨.rtp, false, false, .negotiate, .maxCompat⟩ 3 4

/-- Witness for c10_send_rtp_unknown_media at media id 5. -/
theorem c10_send_rtp_unknown_media_witness :
    c10Session.send_rtp 5 ⟨8, 0, 0, none, []⟩ = none ∧
    c10Session.remove_media 5 = c10Session ∧
    c10Session.update_media 5 .sendRecv = c10Session :=
  c10_send_rtp_unknown_media c10Session 5 ⟨8, 0, 0, none, []⟩ .sendRecv
    (by intro m hm; simp [c10Session, SessionState.new] at hm)

/-! ## C4: DTMF payload type assignment -/

/-- C4 input: two static-pt codecs with distinct clock rates, DTMF
allowed. -/
def c4Codecs : Codecs :=
  ⟨.audio, [⟨"PCMA", 8000, none, some 8, none⟩, ⟨"AAAA", 16000, none, some 9, none⟩], true⟩

/-- C4 session: fresh. -/
def c4Session : SessionState :=
  SessionState.new 10 ⟨.rtp, false, false, .negotiate, .maxCompat⟩ 1 1

/-- C4: add_local_media succeeds and hands BOTH telephone-event entries
the same payload type 96 - the DTMF loop of the source never advances
next_pt - so the dynamically assigned payload types of this LocalMedia are
not pairwise distinct. -/
theorem c4_dtmf_duplicate_payload_types :
    (c4Session.add_local_media c4Codecs 1 .sendRecv).1 = some 0 ∧
    ((c4Session.add_local_media c4Codecs 1 .sendRecv).2.local_media.get? 0).map
      (fun lm => lm.dtmf) = some [(96, 8000), (96, 16000)] ∧
    ¬ (List.map Prod.fst [((96 : Nat), (8000 : Nat)), (96, 16000)]).Nodup := by
  refine ⟨by decide, by decide, by decide⟩

/-! ## C5: payload type exhaustion in add_local_media -/

/-- The number of codecs needing a dynamic payload type. -/
def dynamicPtCount (cs : List Codec) : Nat :=
  (cs.filter (fun c => c.pt.isNone)).length

lemma assignDynamicPts_none_iff :
    ∀ (cs : List Codec) (pt : Nat), pt ≤ 127 →
      (assignDynamicPts cs pt = none ↔ 127 < pt + dynamicPtCount cs) := by
  intro cs
  induction cs with
  | nil =>
    intro pt h
    simp only [assignDynamicPts, dynamicPtCount]
    simp
    omega
  | cons c rest ih =>
    intro pt h
    cases hcpt : c.pt with
    | some v =>
      simp only [assignDynamicPts, hcpt]
      rw [Option.map_eq_none']
      have : dynamicPtCount (c :: rest) = dynamicPtCount rest := by
        simp [dynamicPtCount, List.filter, hcpt]
      rw [this]
      exact ih pt h
    | none =>
      simp only [assignDynamicPts, hcpt]
      have hcount : dynamicPtCount (c :: rest) = dynamicPtCount rest + 1 := by
        simp [dynamicPtCount, List.filter, hcpt]
      by_cases hpt : pt + 1 > 127
      · rw [if_pos hpt]
        simp only [true_iff]
        omega
      · rw [if_neg hpt]
        rw [Option.map_eq_none']
        rw [ih (pt + 1) (by omega)]
        omega

lemma assignDynamicPts_some_le :
    ∀ (cs : List Codec) (pt cs2pt : Nat) (cs2 : List Codec), pt ≤ 127 →
      assignDynamicPts cs pt = some (cs2, cs2pt) → cs2pt ≤ 127 := by
  intro cs
  induction cs with
  | nil =>
    intro pt c2 cs2 h he
    simp [assignDynamicPts] at he
    omega
  | cons c rest ih =>
    intro pt c2 cs2 h he
    cases hcpt : c.pt with
    | some v =>
      simp only [assignDynamicPts, hcpt] at he
      cases hrec : assignDynamicPts rest pt with
      | none => rw [hrec] at he; simp at he
      | some r =>
        rw [hrec] at he
        simp at he
        exact he.2 ▸ ih pt r.2 r.1 h (by rw [hrec])
    | none =>
      simp only [assignDynamicPts, hcpt] at he
      by_cases hpt : pt + 1 > 127
      · rw [if_pos hpt] at he; simp at he
      · rw [if_neg hpt] at he
        cases hrec : assignDynamicPts rest (pt + 1) with
        | none => rw [hrec] at he; simp at he
        | some r =>
          rw [hrec] at he
          simp at he
          exact he.2 ▸ ih (pt + 1) r.2 r.1 (by omega) (by rw [hrec])

lemma dtmfAssign_some :
    ∀ (l : List Nat) (pt : Nat), pt ≤ 127 → (dtmfAssign pt l).isSome := by
  intro l
  induction l with
  | nil => intro pt h; simp [dtmfAssign]
  | cons cr rest ih =>
    intro pt h
    simp only [dtmfAssign]
    rw [if_neg (by omega)]
    have := ih pt h
    cases hrec : dtmfAssign pt rest with
    | none => rw [hrec] at this; simp at this
    | some r => simp

/-- C5 (amended): with the payload type counter in its invariant range
(at most 127), add_local_media returns None exactly when the dynamic
payload types required by the codecs would advance the counter PAST 127 -
that is, it fails already when the codecs need all of the remaining space
including number 127 (127 is never successfully assigned), not only when
they exceed it; the telephone-event entries consume no numbers at all; and
on a None return the counter and the local media registry (the whole
state) are unchanged. -/
theorem c5_add_local_media_exhaustion (s : SessionState) (codecs : Codecs)
    (limit : Nat) (d : Direction) (h : s.next_pt ≤ 127) :
    ((s.add_local_media codecs limit d).1 = none ↔
      127 < s.next_pt + dynamicPtCount codecs.codecs) ∧
    ((s.add_local_media codecs limit d).1 = none →
      (s.add_local_media codecs limit d).2 = s) := by
  unfold SessionState.add_local_media
  cases hrec : assignDynamicPts codecs.codecs s.next_pt with
  | none =>
    simp only
    constructor
    · simp only [true_iff]
      exact (assignDynamicPts_none_iff codecs.codecs s.next_pt h).mp hrec
    · intro _
      trivial
  | some r =>
    have hok : ¬ (127 < s.next_pt + dynamicPtCount codecs.codecs) := by
      intro hgt
      rw [← assignDynamicPts_none_iff codecs.codecs s.next_pt h] at hgt
      rw [hrec] at hgt
      exact absurd hgt (by simp)
    have hle : r.2 ≤ 127 := assignDynamicPts_some_le codecs.codecs s.next_pt r.2 r.1 h hrec
    simp only
    by_cases hdtmf : codecs.allow_dtmf
    · rw [if_pos hdtmf]
      have hs := dtmfAssign_some (clockRatesSorted r.1) r.2 hle
      cases hd : dtmfAssign r.2 (clockRatesSorted r.1) with
      | none => rw [hd] at hs; simp at hs
      | some dl =>
        simp only
        constructor
        · constructor
          · intro habs; simp at habs
          · intro habs; exact absurd habs hok
        · intro habs; simp at habs
    · rw [if_neg hdtmf]
      simp only
      constructor
      · constructor
        · intro habs; simp at habs
        · intro habs; exact absurd habs hok
      · intro habs; simp at habs

/-- C5 counterexample session (fresh, counter at 96). -/
def c5Session : SessionState :=
  SessionState.new 10 ⟨.rtp, false, false, .negotiate, .maxCompat⟩ 1 1

/-- C5 counterexample codecs: exactly 32 dynamic codecs. -/
def c5Codecs : Codecs :=
  ⟨.audio, List.replicate 32 ⟨"X", 8000, none, none, none⟩, false⟩

/-- C5 counterexample: 32 dynamic payload types are required and exactly
32 numbers (96..127) remain, so the requirement does NOT exceed the
remaining space, yet add_local_media returns None (the check runs after
the increment, so assigning 127 itself already fails). -/
theorem c5_add_local_media_counterexample :
    (c5Session.add_local_media c5Codecs 1 .sendRecv).1 = none ∧
    dynamicPtCount c5Codecs.codecs = 32 ∧
    c5Session.next_pt = 96 ∧
    96 + 32 ≤ 128 := by
  refine ⟨by decide, by decide, by decide, by decide⟩

/-- Witness for c5_add_local_media_exhaustion at the counterexample
inputs. -/
theorem c5_add_local_media_exhaustion_witness :
    (((c5Session.add_local_media c5Codecs 1 .sendRecv).1 = none ↔
       127 < c5Session.next_pt + dynamicPtCount c5Codecs.codecs) ∧
     ((c5Session.add_local_media c5Codecs 1 .sendRecv).1 = none →
       (c5Session.add_local_media c5Codecs 1 .sendRecv).2 = c5Session)) :=
  c5_add_local_media_exhaustion c5Session c5Codecs 1 .sendRecv (by decide)

/-! ## C1: create_sdp_offer and removal-pending media -/

/-- C1 codec. -/
def c1Codec : Codec := ⟨"PCMA", 8000, none, some 8, none⟩

/-- C1 transport: built, port assigned, rtcp-mux. -/
def c1Transport : Transport :=
  ⟨.rtp, some 4000, none, ⟨20, 5000⟩, ⟨20, 5000⟩, true, .connected, []⟩

/-- C1 live media bound to transport 0. -/
def c1Media : Media :=
  Media.new 0 0 .audio (some "0") ⟨true, true⟩ false 0 8 c1Codec none 0 1111

/-- C1 session: one live media whose removal is staged. -/
def c1Session : SessionState :=
  { options := ⟨.rtp, false, false, .negotiate, .maxCompat⟩
    id := 1
    version := 2
    address := 10
    next_pt := 96
    local_media := ⟨1, [(0, ⟨⟨.audio, [c1Codec], false⟩, 1, 1, ⟨true, true⟩, []⟩)]⟩
    next_media_id := 1
    state := [c1Media]
    transports := ⟨1, [(0, .transport c1Transport)]⟩
    pending_changes := [.removeMedia 0]
    transport_changes := []
    events := [] }

/-- C1: although media 0 has a RemoveMedia staged, create_sdp_offer still
emits an m-line for it (exactly one m-line, carrying that media's mid):
the `continue` in the RemoveMedia arm of the source targets the inner loop
over pending changes, not the media loop, so it skips nothing. The claim
says such media are omitted. -/
theorem c1_create_sdp_offer_keeps_removal_pending_media :
    c1Session.pending_changes = [.removeMedia 0] ∧
    c1Session.state.map Media.id = [0] ∧
    (c1Session.create_sdp_offer).map
      (fun sd => sd.media_descriptions.map (fun d => d.mid)) = some [some "0"] := by
  refine ⟨rfl, rfl, by decide⟩

/-! ## C2: MaxBundle sharing and a bundle-refusing answer -/

/-- C2 options: MaxBundle, rtcp-mux Require. -/
def c2Options : Options := ⟨.rtp, false, false, .require, .maxBundle⟩

/-- C2 codec list (static payload type). -/
def c2Codecs : Codecs := ⟨.audio, [⟨"PCMA", 8000, none, some 8, none⟩], false⟩

/-- C2 session after add_local_media and two add_media calls. -/
def c2S3 : SessionState :=
  let s0 := SessionState.new 10 c2Options 1 1
  let s1 := (s0.add_local_media c2Codecs 2 .sendRecv).2
  let s2 := ((s1.add_media 0 .sendRecv).map (·.2)).getD s1
  ((s2.add_media 0 .sendRecv).map (·.2)).getD s2

/-- C2 answer: matches the first pending media by mid but lists no BUNDLE
group (the peer refuses bundle). -/
def c2Answer : SessionDescription :=
  { origin := ⟨9, 9, 30⟩
    connection := some 30
    direction := .sendRecv
    group := []
    media_descriptions :=
      [ { media := ⟨.audio, 6000, .rtpAvp, [8]⟩
          direction := .sendRecv
          rtcp := none
          rtcp_mux := true
          mid := some "0"
          rtpmap := [⟨8, "PCMA", 8000, none⟩]
          fmtp := [] } ] }

/-- C2: under MaxBundle both add_media calls stage pending media sharing
the single bundle transport 0 with no standalone transport, and when the
peer's answer lists the pending mid in no BUNDLE group, receive_sdp_answer
panics (the source unwraps the absent standalone transport - its own TODO
says an error should be returned instead) rather than failing with an
error or completing normally. -/
theorem c2_max_bundle_shares_transport_and_panics :
    (c2S3.pending_changes.filterMap (fun c =>
        match c with
        | .addMedia pm => some (pm.bundle_transport, pm.standalone_transport)
        | _ => none))
      = [(0, none), (0, none)] ∧
    c2S3.transports.entries.length = 1 ∧
    c2S3.receive_sdp_answer c2Answer 0 (fun _ => 7) = none := by
  refine ⟨by decide, by decide, by decide⟩

/-! ## C3: offer-path media reuse -/

lemma get_or_create_transport_state (s : SessionState) (ns : List Media)
    (sess : SessionDescription) (desc : MediaDescription) :
    (s.get_or_create_transport ns sess desc).1.state = s.state := by
  unfold SessionState.get_or_create_transport
  cases desc.mid.bind (fun mid => s.find_bundled_transport ns sess mid) with
  | some id => rfl
  | none =>
    dsimp only
    cases Transport.create_from_offer s.transports.next_key s.transport_changes sess desc with
    | none => rfl
    | some r =>
      cases r with
      | mk t changes2 => rfl

/-- C3: in receive_sdp_offer's per-m-line step, an existing Media is
reused exactly when it satisfies the match rule - same media type and,
when both the Media and the m-line carry a mid, equal mids, otherwise a
Built transport whose remote RTP port equals the m-line port - the reused
Media being the first match in state order; on reuse its direction becomes
the flip of the remote direction and a MediaChanged event is emitted
exactly when that direction differs from the previous one; without a match
no existing Media is touched. (Live media ids are unique in every
reachable state; the hypothesis makes that explicit.) -/
theorem c3_receive_sdp_offer_reuse (now : Nat) (ssrcOf : Nat → Nat)
    (offer : SessionDescription) (s : SessionState) (ns : List Media)
    (resp : List SdpResponseEntry) (desc : MediaDescription)
    (huniq : (s.state.map Media.id).Nodup) :
    (∀ m : Media,
      (m.matches s.transports desc = true ↔
        (m.media_type = desc.media.media_type ∧
          ((∃ a b, m.mid = some a ∧ desc.mid = some b ∧ a = b) ∨
           (¬(m.mid.isSome = true ∧ desc.mid.isSome = true) ∧
             ∃ t, s.transports.get? m.transport = some (.transport t) ∧
               t.remote_rtp_address.port = desc.media.port))))) ∧
    (position? (fun m => m.matches s.transports desc) s.state = none →
      (receiveSdpOfferMLine now ssrcOf offer ⟨s, ns, resp⟩ desc).session.state
        = s.state) ∧
    (∀ i m0, position? (fun m => m.matches s.transports desc) s.state = some i →
      s.state[i]? = some m0 →
      (∀ j, j < i → ∀ mj, s.state[j]? = some mj →
        mj.matches s.transports desc = false) ∧
      (receiveSdpOfferMLine now ssrcOf offer ⟨s, ns, resp⟩ desc).session.state
        = s.state.eraseIdx i ∧
      (receiveSdpOfferMLine now ssrcOf offer ⟨s, ns, resp⟩ desc).new_state
        = ns ++ [{ m0 with direction := (desc.direction.flipped).toBools }] ∧
      (receiveSdpOfferMLine now ssrcOf offer ⟨s, ns, resp⟩ desc).response
        = resp ++ [.active m0.id] ∧
      (receiveSdpOfferMLine now ssrcOf offer ⟨s, ns, resp⟩ desc).session.events
        = s.events ++
          (if m0.direction.toDirection ≠ ((desc.direction.flipped).toBools).toDirection
           then [.mediaChanged ⟨m0.id, m0.direction.toDirection,
                  ((desc.direction.flipped).toBools).toDirection⟩]
           else [])) := by
  refine ⟨?_, ?_, ?_⟩
  · -- the match rule
    intro m
    unfold Media.matches
    by_cases hmt : m.media_type = desc.media.media_type
    · rw [if_neg (by simp [hmt])]
      cases hmid : m.mid with
      | some a =>
        cases hdid : desc.mid with
        | some b =>
          simp only [decide_eq_true_eq]
          constructor
          · intro h
            exact ⟨hmt, Or.inl ⟨a, b, rfl, rfl, h⟩⟩
          · rintro ⟨_, ⟨a2, b2, ha2, hb2, heq⟩ | ⟨hno, _⟩⟩
            · cases ha2; cases hb2; exact heq
            · exact absurd ⟨rfl, rfl⟩ hno
        | none =>
          cases hg : s.transports.get? m.transport with
          | some e =>
            cases e with
            | transport t =>
              simp only [decide_eq_true_eq]
              constructor
              · intro h
                exact ⟨hmt, Or.inr ⟨by simp, t, rfl, h⟩⟩
              · rintro ⟨_, ⟨a2, b2, ha2, hb2, heq⟩ | ⟨_, t2, ht2, hport⟩⟩
                · simp at hb2
                · injection ht2 with ht2e
                  injection ht2e with ht2f
                  exact ht2f ▸ hport
            | transportBuilder b =>
              simp only
              constructor
              · intro h; exact absurd h (by simp)
              · rintro ⟨_, ⟨a2, b2, ha2, hb2, heq⟩ | ⟨_, t2, ht2, hport⟩⟩
                · simp at hb2
                · simp at ht2
          | none =>
            simp only
            constructor
            · intro h; exact absurd h (by simp)
            · rintro ⟨_, ⟨a2, b2, ha2, hb2, heq⟩ | ⟨_, t2, ht2, hport⟩⟩
              · simp at hb2
              · simp at ht2
      | none =>
        cases hg : s.transports.get? m.transport with
        | some e =>
          cases e with
          | transport t =>
            simp only [decide_eq_true_eq]
            constructor
            · intro h
              exact ⟨hmt, Or.inr ⟨by simp, t, rfl, h⟩⟩
            · rintro ⟨_, ⟨a2, b2, ha2, hb2, heq⟩ | ⟨_, t2, ht2, hport⟩⟩
              · simp at ha2
              · injection ht2 with ht2e
                injection ht2e with ht2f
                exact ht2f ▸ hport
          | transportBuilder b =>
            simp only
            constructor
            · intro h; exact absurd h (by simp)
            · rintro ⟨_, ⟨a2, b2, ha2, hb2, heq⟩ | ⟨_, t2, ht2, hport⟩⟩
              · simp at ha2
              · simp at ht2
        | none =>
          simp only
          constructor
          · intro h; exact absurd h (by simp)
          · rintro ⟨_, ⟨a2, b2, ha2, hb2, heq⟩ | ⟨_, t2, ht2, hport⟩⟩
            · simp at ha2
            · simp at ht2
    · rw [if_pos (by simp [hmt])]
      simp [hmt]
  · -- no match: the existing media are untouched
    intro hnone
    unfold receiveSdpOfferMLine
    dsimp only
    rw [hnone]
    cases hf : findLocalMediaForOffer s.local_media.entries desc with
    | none => rfl
    | some r =>
      obtain ⟨lmid, chosen, lm2⟩ := r
      dsimp only
      have hst := get_or_create_transport_state
        { s with local_media := s.local_media.setVal lmid lm2 } ns offer desc
      cases hg : ({ s with local_media := s.local_media.setVal lmid lm2
                  } : SessionState).get_or_create_transport ns offer desc with
      | mk s3 opt =>
        rw [hg] at hst
        cases opt with
        | none => exact hst
        | some tid => exact hst
  · -- reuse of the first match
    intro i m0 hpos hget
    refine ⟨?_, ?_⟩
    · obtain ⟨a, hga, hpa, hprev⟩ := position?_some _ _ _ hpos
      exact hprev
    unfold receiveSdpOfferMLine
    dsimp only
    rw [hpos]
    dsimp only
    rw [hget]
    dsimp only
    unfold SessionState.update_active_media
    rw [position?_id_of_nodup s.state i m0 huniq hget]
    try dsimp only
    rw [hget]
    try dsimp only
    by_cases hdir :
        m0.direction.toDirection ≠ ((desc.direction.flipped).toBools).toDirection
    · rw [if_pos hdir]
      try dsimp only
      rw [listUpdateAt_getElem?, hget]
      try dsimp only
      refine ⟨eraseIdx_listUpdateAt s.state i _, rfl, rfl, ?_⟩
      rw [if_pos hdir]
      simp only [Option.map_some']
    · rw [if_neg hdir]
      try dsimp only
      rw [hget]
      try dsimp only
      have hmeq : ({ m0 with direction := (desc.direction.flipped).toBools }) = m0 := by
        have hde : m0.direction = (desc.direction.flipped).toBools := by
          apply toDirection_inj
          exact (not_ne_iff.mp hdir)
        rw [← hde]
      rw [hmeq]
      refine ⟨rfl, rfl, rfl, ?_⟩
      rw [if_neg hdir]
      simp

/-- C3 witness transport (built, remote rtp port 6000). -/
def c3Transport : Transport :=
  ⟨.rtp, some 4000, none, ⟨20, 6000⟩, ⟨20, 6000⟩, true, .connected, []⟩

/-- C3 witness media (sendrecv audio with mid 0). -/
def c3Media : Media :=
  Media.new 7 0 .audio (some "0") ⟨true, true⟩ false 0 8
    ⟨"PCMA", 8000, none, some 8, none⟩ none 0 1111

/-- C3 witness session. -/
def c3Session : SessionState :=
  { options := ⟨.rtp, false, false, .negotiate, .maxCompat⟩
    id := 1
    version := 2
    address := 10
    next_pt := 96
    local_media := ⟨1, [(0, ⟨⟨.audio, [⟨"PCMA", 8000, none, some 8, none⟩], false⟩, 1, 1, ⟨true, true⟩, []⟩)]⟩
    next_media_id := 8
    state := [c3Media]
    transports := ⟨1, [(0, .transport c3Transport)]⟩
    pending_changes := []
    transport_changes := []
    events := [] }

/-- C3 witness m-line: same mid, peer direction recvonly. -/
def c3Desc : MediaDescription :=
  { media := ⟨.audio, 6000, .rtpAvp, [8]⟩
    direction := .recvOnly
    rtcp := none
    rtcp_mux := true
    mid := some "0"
    rtpmap := [⟨8, "PCMA", 8000, none⟩]
    fmtp := [] }

/-- C3 witness offer wrapping the m-line. -/
def c3Offer : SessionDescription :=
  { origin := ⟨0, 0, 0⟩
    connection := some 30
    direction := .sendRecv
    group := []
    media_descriptions := [c3Desc] }

/-- Witness for c3_receive_sdp_offer_reuse: the concrete media matches
(by mid) and after the step it was reused with direction flipped from
the peer's recvonly to sendonly and a MediaChanged emitted. -/
theorem c3_receive_sdp_offer_reuse_witness :
    c3Media.matches c3Session.transports c3Desc = true ∧
    (receiveSdpOfferMLine 0 (fun _ => 5) c3Offer ⟨c3Session, [], []⟩ c3Desc).session.state
      = c3Session.state.eraseIdx 0 ∧
    (receiveSdpOfferMLine 0 (fun _ => 5) c3Offer ⟨c3Session, [], []⟩ c3Desc).new_state
      = [] ++ [{ c3Media with direction := (c3Desc.direction.flipped).toBools }] ∧
    (receiveSdpOfferMLine 0 (fun _ => 5) c3Offer ⟨c3Session, [], []⟩ c3Desc).response
      = [] ++ [.active c3Media.id] ∧
    (receiveSdpOfferMLine 0 (fun _ => 5) c3Offer ⟨c3Session, [], []⟩ c3Desc).session.events
      = c3Session.events ++
        (if c3Media.direction.toDirection ≠ ((c3Desc.direction.flipped).toBools).toDirection
         then [.mediaChanged ⟨c3Media.id, c3Media.direction.toDirection,
                ((c3Desc.direction.flipped).toBools).toDirection⟩]
         else []) := by
  have h := c3_receive_sdp_offer_reuse 0 (fun _ => 5) c3Offer c3Session [] [] c3Desc
    (by decide)
  have h3 := h.2.2 0 c3Media (by decide) (by decide)
  exact ⟨by decide, h3.2.1, h3.2.2.1, h3.2.2.2.1, h3.2.2.2.2⟩

/-! ## C6: the transport-liveness invariant -/

/-- A transport id is referenced by the session: some live media uses it
or some pending AddMedia holds it as bundle or standalone transport. -/
def transportReferenced (s : SessionState) (id : Nat) : Prop :=
  (∃ m ∈ s.state, m.transport = id) ∨
  (∃ pm, PendingChange.addMedia pm ∈ s.pending_changes ∧
    (pm.bundle_transport = id ∨ pm.standalone_transport = some id))

/-- The C6 invariant: every live media's transport id is in the transports
map, the map holds no unreferenced entry, and (auxiliary strengthening
needed for the induction) every pending AddMedia's transport ids are in
the map. -/
def SessionInv (s : SessionState) : Prop :=
  (∀ m ∈ s.state, s.transports.contains m.transport = true) ∧
  (∀ e ∈ s.transports.entries, transportReferenced s e.1) ∧
  (∀ pm, PendingChange.addMedia pm ∈ s.pending_changes →
    s.transports.contains pm.bundle_transport = true ∧
    ∀ st, pm.standalone_transport = some st → s.transports.contains st = true)

/-- Every state reachable through the public SessionState operations. The
constructors for operations that can panic require the non-panicking
outcome; transport_state covers the connection-state transitions the
(external) ICE/DTLS machinery of a built transport performs. -/
inductive Reachable : SessionState → Prop where
  | new : ∀ address options id version,
      Reachable (SessionState.new address options id version)
  | add_stun_server : ∀ s a, Reachable s → Reachable (s.add_stun_server a)
  | add_local_media : ∀ s codecs limit d, Reachable s →
      Reachable (s.add_local_media codecs limit d).2
  | add_media : ∀ s lmid d r, Reachable s → s.add_media lmid d = some r →
      Reachable r.2
  | remove_media : ∀ s id, Reachable s → Reachable (s.remove_media id)
  | update_media : ∀ s id d, Reachable s → Reachable (s.update_media id d)
  | take_transport_changes : ∀ s, Reachable s →
      Reachable s.take_transport_changes.2
  | set_transport_ports : ∀ s tid ips rtp rtcp s2, Reachable s →
      s.set_transport_ports tid ips rtp rtcp = some s2 → Reachable s2
  | poll : ∀ s now s2, Reachable s → s.poll now = some s2 → Reachable s2
  | pop_event : ∀ s, Reachable s → Reachable s.pop_event.2
  | receive : ∀ s tid pkt s2, Reachable s → s.receive tid pkt = some s2 →
      Reachable s2
  | send_rtp : ∀ s mid pkt s2, Reachable s → s.send_rtp mid pkt = some s2 →
      Reachable s2
  | receive_sdp_offer : ∀ s offer now ssrcOf, Reachable s →
      Reachable (s.receive_sdp_offer offer now ssrcOf).2
  | receive_sdp_answer : ∀ s answer now ssrcOf s2, Reachable s →
      s.receive_sdp_answer answer now ssrcOf = some s2 → Reachable s2
  | transport_state : ∀ s tid t cs, Reachable s →
      s.transports.get? tid = some (.transport t) →
      Reachable { s with transports :=
        s.transports.setVal tid (.transport { t with connection_state := cs }) }

/-! ### SlotMap and list lemmas -/

lemma SlotMap.contains_of_get? {α : Type} {m : SlotMap α} {k : Nat} {v : α}
    (h : m.get? k = some v) : m.contains k = true := by
  unfold SlotMap.get? at h
  unfold SlotMap.contains
  cases hf : m.entries.find? (fun e => e.1 = k) with
  | none => rw [hf] at h; simp at h
  | some e =>
    have := List.find?_some hf
    have hmem := List.mem_of_find?_eq_some hf
    rw [List.any_eq_true]
    exact ⟨e, hmem, this⟩

lemma SlotMap.contains_setVal {α : Type} (m : SlotMap α) (k : Nat) (a : α)
    (x : Nat) : (m.setVal k a).contains x = m.contains x := by
  unfold SlotMap.contains SlotMap.setVal
  simp only [List.any_map]
  congr 1
  funext e
  by_cases h : e.1 = k
  · simp [Function.comp, h]
  · simp [Function.comp, h]

lemma SlotMap.keys_setVal {α : Type} (m : SlotMap α) (k : Nat) (a : α) :
    (m.setVal k a).entries.map Prod.fst = m.entries.map Prod.fst := by
  unfold SlotMap.setVal
  simp only [List.map_map]
  congr 1
  funext e
  by_cases h : e.1 = k
  · simp [Function.comp, h]
  · simp [Function.comp, h]

lemma SlotMap.contains_iff_keys {α : Type} (m : SlotMap α) (x : Nat) :
    m.contains x = true ↔ x ∈ m.entries.map Prod.fst := by
  unfold SlotMap.contains
  rw [List.any_eq_true]
  constructor
  · rintro ⟨e, hmem, he⟩
    simp at he
    exact he ▸ List.mem_map_of_mem Prod.fst hmem
  · intro hx
    obtain ⟨e, hmem, he⟩ := List.mem_map.mp hx
    exact ⟨e, hmem, by simp [he]⟩

lemma SlotMap.contains_insert_of {α : Type} {m : SlotMap α} {a : α} {x : Nat}
    (h : m.contains x = true) : (m.insert a).2.contains x = true := by
  unfold SlotMap.contains at h
  unfold SlotMap.insert SlotMap.insertWithKey SlotMap.contains
  simp only [List.any_append]
  rw [h]
  simp

lemma SlotMap.contains_insert_self {α : Type} (m : SlotMap α) (a : α) :
    (m.insert a).2.contains (m.insert a).1 = true := by
  unfold SlotMap.insert SlotMap.insertWithKey SlotMap.contains
  simp [List.any_append]

lemma SlotMap.mem_retain {α : Type} {m : SlotMap α} {p : Nat → α → Bool}
    {e : Nat × α} (h : e ∈ (m.retain p).entries) : e ∈ m.entries := by
  unfold SlotMap.retain at h
  exact List.mem_of_mem_filter h

lemma SlotMap.contains_retain {α : Type} (m : SlotMap α) (keepB : Nat → Bool)
    (x : Nat) :
    (m.retain (fun k _ => keepB k)).contains x = (m.contains x && keepB x) := by
  unfold SlotMap.retain SlotMap.contains
  induction m.entries with
  | nil => simp
  | cons e rest ih =>
    by_cases hk : keepB e.1
    · by_cases hx : e.1 = x
      · simp [List.filter, hk, hx, List.any_cons]
        subst hx
        simp [hk]
      · simp only [List.filter, hk, List.any_cons]
        simp only [decide_eq_true_eq] at ih ⊢
        simp [hx, ih]
    · by_cases hx : e.1 = x
      · subst hx
        simp only [List.filter]
        rw [Bool.not_eq_true] at hk
        rw [hk]
        simp only [List.any_cons]
        simp only at ih
        rw [ih]
        simp [hk]
      · simp only [List.filter]
        rw [Bool.not_eq_true] at hk
        rw [hk]
        simp only [List.any_cons]
        rw [ih]
        simp [hx]

lemma mem_eraseIdx {α : Type} {a : α} :
    ∀ {l : List α} {i : Nat}, a ∈ l.eraseIdx i → a ∈ l := by
  intro l
  induction l with
  | nil => intro i h; simp [List.eraseIdx] at h
  | cons b rest ih =>
    intro i h
    cases i with
    | zero => exact List.mem_cons_of_mem b h
    | succ j =>
      rw [List.eraseIdx] at h
      rcases List.mem_cons.mp h with h1 | h2
      · exact h1 ▸ List.mem_cons_self b rest
      · exact List.mem_cons_of_mem b (ih h2)

lemma mem_listUpdateAt {α : Type} {a : α} :
    ∀ {l : List α} {i : Nat} {f : α → α}, a ∈ listUpdateAt l i f →
      a ∈ l ∨ ∃ b ∈ l, a = f b := by
  intro l
  induction l with
  | nil => intro i f h; simp [listUpdateAt] at h
  | cons b rest ih =>
    intro i f h
    cases i with
    | zero =>
      rw [listUpdateAt] at h
      rcases List.mem_cons.mp h with h1 | h2
      · exact Or.inr ⟨b, List.mem_cons_self b rest, h1⟩
      · exact Or.inl (List.mem_cons_of_mem b h2)
    | succ j =>
      rw [listUpdateAt] at h
      rcases List.mem_cons.mp h with h1 | h2
      · exact Or.inl (h1 ▸ List.mem_cons_self b rest)
      · rcases ih h2 with h3 | ⟨c, hc, he⟩
        · exact Or.inl (List.mem_cons_of_mem b h3)
        · exact Or.inr ⟨c, List.mem_cons_of_mem b hc, he⟩

lemma Media.poll_transport (m : Media) (now : Nat) (t : Transport) :
    (m.poll now t).1.transport = m.transport := by
  unfold Media.poll
  dsimp only
  split <;> split <;> rfl

lemma listUpdateAt_map_eq_at {α β : Type} (g : α → β) :
    ∀ (l : List α) (i : Nat) (f : α → α),
      (∀ a, l[i]? = some a → g (f a) = g a) →
      (listUpdateAt l i f).map g = l.map g := by
  intro l
  induction l with
  | nil => intro i f _; rfl
  | cons a rest ih =>
    intro i f h
    cases i with
    | zero =>
      rw [listUpdateAt]
      simp only [List.map_cons]
      rw [h a (by simp)]
    | succ j =>
      rw [listUpdateAt]
      simp only [List.map_cons]
      rw [ih j f (fun b hb => h b (by simpa using hb))]

lemma exists_transport_iff_of_map_eq {l2 l : List Media}
    (h : l2.map Media.transport = l.map Media.transport) (id : Nat) :
    (∃ m ∈ l2, m.transport = id) ↔ (∃ m ∈ l, m.transport = id) := by
  constructor
  · rintro ⟨m, hm, he⟩
    have : id ∈ l.map Media.transport := h ▸ he ▸ List.mem_map_of_mem Media.transport hm
    obtain ⟨m2, hm2, he2⟩ := List.mem_map.mp this
    exact ⟨m2, hm2, he2⟩
  · rintro ⟨m, hm, he⟩
    have : id ∈ l2.map Media.transport := by
      rw [h]
      exact he ▸ List.mem_map_of_mem Media.transport hm
    obtain ⟨m2, hm2, he2⟩ := List.mem_map.mp this
    exact ⟨m2, hm2, he2⟩

lemma transportReferenced_congr {s2 s : SessionState} {id : Nat}
    (hstate : s2.state.map Media.transport = s.state.map Media.transport)
    (hp : s2.pending_changes = s.pending_changes) :
    transportReferenced s2 id ↔ transportReferenced s id := by
  unfold transportReferenced
  rw [hp, exists_transport_iff_of_map_eq hstate]

/-- Invariance of SessionInv under operations that keep the media
transport references, the transport key set and the pending changes. -/
lemma sessionInv_keys {s2 s : SessionState}
    (hstate : s2.state.map Media.transport = s.state.map Media.transport)
    (hkeys : s2.transports.entries.map Prod.fst = s.transports.entries.map Prod.fst)
    (hp : s2.pending_changes = s.pending_changes)
    (h : SessionInv s) : SessionInv s2 := by
  obtain ⟨h1, h2, h3⟩ := h
  have hcont : ∀ x, s2.transports.contains x = s.transports.contains x := by
    intro x
    rcases hc : s.transports.contains x with hv | hv
    · rcases hc2 : s2.transports.contains x with hv2 | hv2
      · rfl
      · exfalso
        have := (SlotMap.contains_iff_keys s2.transports x).mp hc2
        rw [hkeys] at this
        have := (SlotMap.contains_iff_keys s.transports x).mpr this
        rw [hc] at this
        exact absurd this (by simp)
    · have := (SlotMap.contains_iff_keys s.transports x).mp hc
      rw [← hkeys] at this
      exact (SlotMap.contains_iff_keys s2.transports x).mpr this
  refine ⟨?_, ?_, ?_⟩
  · intro m hm
    rw [hcont]
    have : m.transport ∈ s2.state.map Media.transport :=
      List.mem_map_of_mem Media.transport hm
    rw [hstate] at this
    obtain ⟨m2, hm2, he2⟩ := List.mem_map.mp this
    exact he2 ▸ h1 m2 hm2
  · intro e he
    have : e.1 ∈ s2.transports.entries.map Prod.fst :=
      List.mem_map_of_mem Prod.fst he
    rw [hkeys] at this
    obtain ⟨e2, he2, hee⟩ := List.mem_map.mp this
    rw [transportReferenced_congr hstate hp]
    exact hee ▸ h2 e2 he2
  · intro pm hpm
    rw [hp] at hpm
    obtain ⟨hb, hs⟩ := h3 pm hpm
    exact ⟨by rw [hcont]; exact hb, fun st hst => by rw [hcont]; exact hs st hst⟩

/-- Invariance under appending a pending change that is not an AddMedia. -/
lemma sessionInv_push_pending {s : SessionState} {c : PendingChange}
    (hc : ∀ pm, c ≠ .addMedia pm)
    (h : SessionInv s) :
    SessionInv { s with pending_changes := s.pending_changes ++ [c] } := by
  obtain ⟨h1, h2, h3⟩ := h
  refine ⟨h1, ?_, ?_⟩
  · intro e he
    rcases h2 e he with href | ⟨pm, hpm, hor⟩
    · exact Or.inl href
    · exact Or.inr ⟨pm, by simp [List.mem_append]; exact Or.inl hpm, hor⟩
  · intro pm hpm
    simp only [List.mem_append, List.mem_singleton] at hpm
    rcases hpm with hpm | hpm
    · exact h3 pm hpm
    · exact absurd hpm.symm (hc pm)

lemma pollMediaList_spec (now : Nat) :
    ∀ (l : List Media) (ts : SlotMap TransportEntry) (evs : List Event)
      (r : List Media × SlotMap TransportEntry × List Event),
      pollMediaList now l ts evs = some r →
      r.1.map Media.transport = l.map Media.transport ∧
      r.2.1.entries.map Prod.fst = ts.entries.map Prod.fst := by
  intro l
  induction l with
  | nil =>
    intro ts evs r h
    rw [pollMediaList] at h
    simp only [Option.some.injEq] at h
    rw [← h]
    exact ⟨rfl, rfl⟩
  | cons m rest ih =>
    intro ts evs r h
    rw [pollMediaList] at h
    cases hg : ts.get? m.transport with
    | none => rw [hg] at h; simp at h
    | some e =>
      cases e with
      | transportBuilder b => rw [hg] at h; simp at h
      | transport t =>
        rw [hg] at h
        dsimp only at h
        cases hrec : pollMediaList now rest
            (ts.setVal m.transport (.transport (m.poll now t).2.1))
            (evs ++ (m.poll now t).2.2) with
        | none => rw [hrec] at h; simp at h
        | some rr =>
          rw [hrec] at h
          simp only [Option.map_some', Option.some.injEq] at h
          obtain ⟨hmap, hkeys⟩ := ih _ _ rr hrec
          rw [← h]
          refine ⟨?_, ?_⟩
          · simp only [List.map_cons]
            rw [Media.poll_transport, hmap]
          · rw [hkeys, SlotMap.keys_setVal]

lemma popTransportEvent_keys :
    ∀ (l : List (Nat × TransportEntry)) (r : Nat × TransportEvent × List (Nat × TransportEntry)),
      popTransportEvent l = some r → r.2.2.map Prod.fst = l.map Prod.fst := by
  intro l
  induction l with
  | nil => intro r h; simp [popTransportEvent] at h
  | cons e rest ih =>
    intro r h
    cases e with
    | mk k te =>
      rw [popTransportEvent] at h
      cases hp : (entryPopEvent te).1 with
      | some ev =>
        rw [hp] at h
        simp only [Option.some.injEq] at h
        rw [← h]
        rfl
      | none =>
        rw [hp] at h
        cases hrec : popTransportEvent rest with
        | none => rw [hrec] at h; simp at h
        | some rr =>
          rw [hrec] at h
          simp only [Option.map_some', Option.some.injEq] at h
          rw [← h]
          simp only [List.map_cons]
          rw [ih rr hrec]

lemma SlotMap.mem_insert {α : Type} {m : SlotMap α} {a : α} {e : Nat × α}
    (h : e ∈ (m.insert a).2.entries) : e ∈ m.entries ∨ e = (m.next_key, a) := by
  unfold SlotMap.insert SlotMap.insertWithKey at h
  simpa using List.mem_append.mp h

lemma SlotMap.contains_of_entry_find? {α : Type} {m : SlotMap α}
    {p : Nat × α → Bool} {e : Nat × α} (h : m.entries.find? p = some e) :
    m.contains e.1 = true :=
  (SlotMap.contains_iff_keys m e.1).mpr
    (List.mem_map_of_mem Prod.fst (List.mem_of_find?_eq_some h))

lemma inv_add_local_media (s : SessionState) (codecs : Codecs) (limit : Nat)
    (d : Direction) (h : SessionInv s) :
    SessionInv (s.add_local_media codecs limit d).2 := by
  unfold SessionState.add_local_media
  cases assignDynamicPts codecs.codecs s.next_pt with
  | none => exact h
  | some r =>
    cases r with
    | mk cs2 pt2 =>
      dsimp only
      cases (if codecs.allow_dtmf then dtmfAssign pt2 (clockRatesSorted cs2)
             else some []) with
      | none => exact h
      | some dl => exact h

lemma inv_remove_media (s : SessionState) (id : Nat) (h : SessionInv s) :
    SessionInv (s.remove_media id) := by
  unfold SessionState.remove_media
  by_cases hc : s.state.any (fun m => m.id = id)
  · rw [if_pos hc]
    exact sessionInv_push_pending (by intro pm hpm; simp at hpm) h
  · rw [if_neg hc]
    exact h

lemma inv_update_media (s : SessionState) (id : Nat) (d : Direction)
    (h : SessionInv s) : SessionInv (s.update_media id d) := by
  unfold SessionState.update_media
  by_cases hc : s.state.any (fun m => m.id = id)
  · rw [if_pos hc]
    exact sessionInv_push_pending (by intro pm hpm; simp at hpm) h
  · rw [if_neg hc]
    exact h

lemma inv_take_transport_changes (s : SessionState) (h : SessionInv s) :
    SessionInv s.take_transport_changes.2 := h

lemma inv_set_transport_ports (s : SessionState) (tid : Nat) (ips : List Nat)
    (rtp : Nat) (rtcp : Option Nat) (s2 : SessionState) (h : SessionInv s)
    (he : s.set_transport_ports tid ips rtp rtcp = some s2) :
    SessionInv s2 := by
  unfold SessionState.set_transport_ports at he
  cases hg : s.transports.get? tid with
  | none => rw [hg] at he; simp at he
  | some e =>
    rw [hg] at he
    dsimp only at he
    cases e with
    | transport t =>
      simp only [Option.some.injEq] at he
      rw [← he]
      refine sessionInv_keys ?_ ?_ ?_ h
      · rfl
      · exact SlotMap.keys_setVal _ _ _
      · rfl
    | transportBuilder b =>
      simp only [Option.some.injEq] at he
      rw [← he]
      refine sessionInv_keys ?_ ?_ ?_ h
      · rfl
      · exact SlotMap.keys_setVal _ _ _
      · rfl

lemma inv_poll (s : SessionState) (now : Nat) (s2 : SessionState)
    (h : SessionInv s) (he : s.poll now = some s2) : SessionInv s2 := by
  unfold SessionState.poll at he
  cases hp : pollMediaList now s.state s.transports [] with
  | none => rw [hp] at he; simp at he
  | some r =>
    rw [hp] at he
    cases r with
    | mk st2 rr =>
      cases rr with
      | mk ts2 evs =>
        simp only [Option.some.injEq] at he
        obtain ⟨hmap, hkeys⟩ := pollMediaList_spec now s.state s.transports [] _ hp
        rw [← he]
        refine sessionInv_keys ?_ ?_ ?_ h
        · exact hmap
        · exact hkeys
        · rfl

lemma inv_pop_event (s : SessionState) (h : SessionInv s) :
    SessionInv s.pop_event.2 := by
  unfold SessionState.pop_event
  cases hp : popTransportEvent s.transports.entries with
  | some r =>
    dsimp only
    refine sessionInv_keys ?_ ?_ ?_ h
    · rfl
    · exact popTransportEvent_keys _ _ hp
    · rfl
  | none =>
    dsimp only
    cases s.events with
    | nil => exact h
    | cons e rest => exact h

lemma inv_transport_state (s : SessionState) (tid : Nat) (t : Transport)
    (cs : TransportConnectionState) (h : SessionInv s) :
    SessionInv { s with transports :=
      s.transports.setVal tid (.transport { t with connection_state := cs }) } := by
  refine sessionInv_keys ?_ ?_ ?_ h
  · rfl
  · exact SlotMap.keys_setVal _ _ _
  · rfl

lemma inv_send_rtp (s : SessionState) (mid : Nat) (pkt : RtpPacket)
    (s2 : SessionState) (h : SessionInv s)
    (he : s.send_rtp mid pkt = some s2) : SessionInv s2 := by
  unfold SessionState.send_rtp at he
  cases hp : position? (fun m => m.id = mid) s.state with
  | none => rw [hp] at he; simp at he
  | some i =>
    rw [hp] at he
    dsimp only at he
    cases hg : s.state[i]? with
    | none => rw [hg] at he; simp at he
    | some m =>
      rw [hg] at he
      dsimp only at he
      cases hu : (s.transports.get? m.transport).bind TransportEntry.unwrapBuilt with
      | none => rw [hu] at he; simp at he
      | some t =>
        rw [hu] at he
        simp only [Option.some.injEq] at he
        rw [← he]
        refine sessionInv_keys ?_ ?_ ?_ h
        · refine listUpdateAt_map_eq_at Media.transport s.state i _ ?_
          intro a ha
          rw [hg] at ha
          injection ha with hae
          rw [← hae]
          rfl
        · exact SlotMap.keys_setVal _ _ _
        · rfl

lemma inv_receive (s : SessionState) (tid : Nat) (pkt : ReceivedPkt)
    (s2 : SessionState) (h : SessionInv s)
    (he : s.receive tid pkt = some s2) : SessionInv s2 := by
  unfold SessionState.receive at he
  cases hg : s.transports.get? tid with
  | none => rw [hg] at he; simp at he
  | some e =>
    rw [hg] at he
    cases e with
    | transportBuilder b =>
      dsimp only at he
      simp only [Option.some.injEq] at he
      rw [← he]
      refine sessionInv_keys ?_ ?_ ?_ h
      · rfl
      · exact SlotMap.keys_setVal _ _ _
      · rfl
    | transport t =>
      dsimp only at he
      cases hr : t.receive pkt with
      | rtp packet =>
        rw [hr] at he
        dsimp only at he
        cases hidx :
            (match position? (fun m : Media =>
                m.transport = tid &&
                  (match m.mid, packet.ext_mid with
                   | some a, some b => a = b
                   | _, _ => false)) s.state with
             | some i => some i
             | none =>
               position? (fun m : Media =>
                 m.transport = tid && m.remote_payload_types.contains packet.pt)
                 s.state) with
        | none =>
          rw [hidx] at he
          simp only [Option.some.injEq] at he
          rw [← he]
          exact h
        | some i =>
          rw [hidx] at he
          simp only [Option.some.injEq] at he
          rw [← he]
          refine sessionInv_keys ?_ ?_ ?_ h
          · exact listUpdateAt_map_eq_at Media.transport s.state i _ (fun a _ => rfl)
          · rfl
          · rfl
      | rtcp view =>
        rw [hr] at he
        cases view with
        | none =>
          dsimp only at he
          simp only [Option.some.injEq] at he
          rw [← he]
          exact h
        | some packets =>
          dsimp only at he
          cases packets with
          | nil =>
            simp only [Option.some.injEq] at he
            rw [← he]
            exact h
          | cons p0 prest =>
            dsimp only at he
            cases hs : rtcpRouteSsrc p0 with
            | none =>
              rw [hs] at he
              simp only [Option.some.injEq] at he
              rw [← he]
              exact h
            | some ssrc =>
              rw [hs] at he
              dsimp only at he
              cases hidx : position?
                  (fun m : Media => m.rtp_session.remote_ssrcs.contains ssrc) s.state with
              | none =>
                rw [hidx] at he
                simp only [Option.some.injEq] at he
                rw [← he]
                exact h
              | some i =>
                rw [hidx] at he
                simp only [Option.some.injEq] at he
                rw [← he]
                refine sessionInv_keys ?_ ?_ ?_ h
                · exact listUpdateAt_map_eq_at Media.transport s.state i _ (fun a _ => rfl)
                · rfl
                · rfl
      | ignore =>
        rw [hr] at he
        simp only [Option.some.injEq] at he
        rw [← he]
        exact h

lemma inv_add_media (s : SessionState) (lmid : Nat) (d : Direction)
    (r : Nat × SessionState) (h : SessionInv s)
    (he : s.add_media lmid d = some r) : SessionInv r.2 := by
  obtain ⟨h1, h2, h3⟩ := h
  unfold SessionState.add_media at he
  cases hg : s.local_media.get? lmid with
  | none => rw [hg] at he; simp at he
  | some lm =>
    rw [hg] at he
    dsimp only at he
    cases hbp : s.options.bundle_policy with
    | maxCompat =>
      rw [hbp] at he
      dsimp only at he
      simp only [Option.some.injEq] at he
      rw [← he]
      dsimp only
      -- the new transports map: one fresh builder inserted
      constructor
      · intro m hm
        exact SlotMap.contains_insert_of (h1 m hm)
      constructor
      · intro e hme
        rcases SlotMap.mem_insert hme with hold | hnew
        · rcases h2 e hold with ⟨m, hm, hmt⟩ | ⟨pm, hpm, hor⟩
          · exact Or.inl ⟨m, hm, hmt⟩
          · refine Or.inr ⟨pm, ?_, hor⟩
            simp only [List.mem_append, List.mem_singleton]
            exact Or.inl hpm
        · subst hnew
          exact Or.inr ⟨_, List.mem_append_right _ (List.mem_singleton_self _), Or.inr rfl⟩
      · intro pm hpm
        simp only [List.mem_append, List.mem_singleton] at hpm
        rcases hpm with hpm | hpm
        · obtain ⟨hb, hs⟩ := h3 pm hpm
          exact ⟨SlotMap.contains_insert_of hb,
            fun st hst => SlotMap.contains_insert_of (hs st hst)⟩
        · cases hpm
          constructor
          · cases hfind : s.transports.entries.find?
                (fun e => e.2.typ = maxTransportType s.transports s.options.offer_transport) with
            | none =>
              simp only [hfind, Option.map_none', Option.getD_none]
              exact SlotMap.contains_insert_self _ _
            | some fe =>
              simp only [hfind, Option.map_some', Option.getD_some]
              exact SlotMap.contains_insert_of (SlotMap.contains_of_entry_find? hfind)
          · intro st hst
            simp only [Option.some.injEq] at hst
            rw [← hst]
            exact SlotMap.contains_insert_self _ _
    | maxBundle =>
      rw [hbp] at he
      dsimp only at he
      cases hfind : s.transports.entries.find?
          (fun e => e.2.typ = maxTransportType s.transports s.options.offer_transport) with
      | some fe =>
        rw [hfind] at he
        try dsimp only at he
        simp only [Option.some.injEq] at he
        rw [← he]
        dsimp only
        constructor
        · exact h1
        constructor
        · intro e hme
          rcases h2 e hme with ⟨m, hm, hmt⟩ | ⟨pm, hpm, hor⟩
          · exact Or.inl ⟨m, hm, hmt⟩
          · refine Or.inr ⟨pm, ?_, hor⟩
            simp only [List.mem_append, List.mem_singleton]
            exact Or.inl hpm
        · intro pm hpm
          simp only [List.mem_append, List.mem_singleton] at hpm
          rcases hpm with hpm | hpm
          · exact h3 pm hpm
          · cases hpm
            refine ⟨SlotMap.contains_of_entry_find? hfind, ?_⟩
            intro st hst
            simp at hst
      | none =>
        rw [hfind] at he
        try dsimp only at he
        simp only [Option.some.injEq] at he
        rw [← he]
        dsimp only
        constructor
        · intro m hm
          exact SlotMap.contains_insert_of (h1 m hm)
        constructor
        · intro e hme
          rcases SlotMap.mem_insert hme with hold | hnew
          · rcases h2 e hold with ⟨m, hm, hmt⟩ | ⟨pm, hpm, hor⟩
            · exact Or.inl ⟨m, hm, hmt⟩
            · refine Or.inr ⟨pm, ?_, hor⟩
              simp only [List.mem_append, List.mem_singleton]
              exact Or.inl hpm
          · subst hnew
            exact Or.inr ⟨_, List.mem_append_right _ (List.mem_singleton_self _), Or.inl rfl⟩
        · intro pm hpm
          simp only [List.mem_append, List.mem_singleton] at hpm
          rcases hpm with hpm | hpm
          · obtain ⟨hb, hs⟩ := h3 pm hpm
            exact ⟨SlotMap.contains_insert_of hb,
              fun st hst => SlotMap.contains_insert_of (hs st hst)⟩
          · cases hpm
            refine ⟨SlotMap.contains_insert_self _ _, ?_⟩
            intro st hst
            simp at hst

/-- The retain predicate of remove_unused_transports, as a key-only
boolean. -/
def keepTransport (s : SessionState) (id : Nat) : Bool :=
  s.state.any (fun m => m.transport = id) ||
    s.pending_changes.any (fun c =>
      match c with
      | .addMedia am =>
        am.bundle_transport = id || am.standalone_transport = some id
      | _ => false)

lemma keepTransport_iff (s : SessionState) (id : Nat) :
    keepTransport s id = true ↔ transportReferenced s id := by
  unfold keepTransport transportReferenced
  rw [Bool.or_eq_true, List.any_eq_true, List.any_eq_true]
  constructor
  · rintro (⟨m, hm, he⟩ | ⟨c, hc, he⟩)
    · exact Or.inl ⟨m, hm, by simpa using he⟩
    · cases c with
      | addMedia am =>
        simp only [Bool.or_eq_true, decide_eq_true_eq] at he
        exact Or.inr ⟨am, hc, he⟩
      | removeMedia i => simp at he
      | changeDirection i d => simp at he
  · rintro (⟨m, hm, he⟩ | ⟨pm, hpm, hor⟩)
    · exact Or.inl ⟨m, hm, by simpa using he⟩
    · refine Or.inr ⟨.addMedia pm, hpm, ?_⟩
      simp only [Bool.or_eq_true, decide_eq_true_eq]
      exact hor

lemma remove_unused_transports_retain (s : SessionState) :
    s.remove_unused_transports = { s with
      transports := s.transports.retain (fun k _ => keepTransport s k)
      transport_changes := s.transport_changes ++
        ((s.transports.entries.filter
          (fun e => !keepTransport s e.1)).map (·.1)).map .remove } := by
  rfl

lemma inv_remove_unused_transports (s : SessionState)
    (h1 : ∀ m ∈ s.state, s.transports.contains m.transport = true)
    (h3 : ∀ pm, PendingChange.addMedia pm ∈ s.pending_changes →
      s.transports.contains pm.bundle_transport = true ∧
      ∀ st, pm.standalone_transport = some st → s.transports.contains st = true) :
    SessionInv s.remove_unused_transports := by
  rw [remove_unused_transports_retain]
  refine ⟨?_, ?_, ?_⟩
  · intro m hm
    rw [SlotMap.contains_retain]
    rw [Bool.and_eq_true]
    refine ⟨h1 m hm, ?_⟩
    rw [keepTransport_iff]
    exact Or.inl ⟨m, hm, rfl⟩
  · intro e he
    have hf := List.mem_filter.mp he
    have hkeep : keepTransport s e.1 = true := by simpa using hf.2
    rw [keepTransport_iff] at hkeep
    exact hkeep
  · intro pm hpm
    constructor
    · rw [SlotMap.contains_retain, Bool.and_eq_true]
      refine ⟨(h3 pm hpm).1, ?_⟩
      rw [keepTransport_iff]
      exact Or.inr ⟨pm, hpm, Or.inl rfl⟩
    · intro st hst
      rw [SlotMap.contains_retain, Bool.and_eq_true]
      refine ⟨(h3 pm hpm).2 st hst, ?_⟩
      rw [keepTransport_iff]
      exact Or.inr ⟨pm, hpm, Or.inr hst⟩

lemma findSome?_exists {α β : Type} {f : α → Option β} {b : β} :
    ∀ {l : List α}, l.findSome? f = some b → ∃ a ∈ l, f a = some b := by
  intro l
  induction l with
  | nil => intro h; simp [List.findSome?] at h
  | cons a rest ih =>
    intro h
    rw [List.findSome?_cons] at h
    cases hf : f a with
    | some v =>
      rw [hf] at h
      dsimp only at h
      exact ⟨a, List.mem_cons_self a rest, by rw [hf]; exact h⟩
    | none =>
      rw [hf] at h
      dsimp only at h
      obtain ⟨c, hc, hfc⟩ := ih h
      exact ⟨c, List.mem_cons_of_mem a hc, hfc⟩

lemma find_bundled_transport_mem {s : SessionState} {ns : List Media}
    {offer : SessionDescription} {mid : String} {tid : Nat}
    (h : s.find_bundled_transport ns offer mid = some tid) :
    ∃ m ∈ ns ++ s.state, m.transport = tid := by
  unfold SessionState.find_bundled_transport at h
  cases hg : offer.group.find? (fun g => g.typ = "BUNDLE" && g.mids.contains mid) with
  | none => rw [hg] at h; simp at h
  | some g =>
    rw [hg] at h
    obtain ⟨m, hm, hf⟩ := findSome?_exists h
    cases hmid : m.mid with
    | none => rw [hmid] at hf; simp at hf
    | some mmid =>
      rw [hmid] at hf
      dsimp only at hf
      by_cases hany : g.mids.any (fun v => v = mmid)
      · rw [if_pos hany] at hf
        injection hf with hfe
        exact ⟨m, hm, hfe⟩
      · rw [if_neg hany] at hf
        simp at hf

lemma get_or_create_transport_pending (s : SessionState) (ns : List Media)
    (sess : SessionDescription) (desc : MediaDescription) :
    (s.get_or_create_transport ns sess desc).1.pending_changes = s.pending_changes := by
  unfold SessionState.get_or_create_transport
  cases desc.mid.bind (fun mid => s.find_bundled_transport ns sess mid) with
  | some id => rfl
  | none =>
    dsimp only
    cases Transport.create_from_offer s.transports.next_key s.transport_changes sess desc with
    | none => rfl
    | some r =>
      cases r with
      | mk t changes2 => rfl

lemma get_or_create_transport_mono (s : SessionState) (ns : List Media)
    (sess : SessionDescription) (desc : MediaDescription) (x : Nat)
    (h : s.transports.contains x = true) :
    (s.get_or_create_transport ns sess desc).1.transports.contains x = true := by
  unfold SessionState.get_or_create_transport
  cases desc.mid.bind (fun mid => s.find_bundled_transport ns sess mid) with
  | some id => exact h
  | none =>
    dsimp only
    cases Transport.create_from_offer s.transports.next_key s.transport_changes sess desc with
    | none => exact h
    | some r =>
      cases r with
      | mk t changes2 => exact SlotMap.contains_insert_of h

lemma get_or_create_transport_contains (s : SessionState) (ns : List Media)
    (sess : SessionDescription) (desc : MediaDescription) (tid : Nat)
    (hm : ∀ m ∈ ns ++ s.state, s.transports.contains m.transport = true)
    (he : (s.get_or_create_transport ns sess desc).2 = some tid) :
    (s.get_or_create_transport ns sess desc).1.transports.contains tid = true := by
  unfold SessionState.get_or_create_transport at he ⊢
  cases hb : desc.mid.bind (fun mid => s.find_bundled_transport ns sess mid) with
  | some id =>
    rw [hb] at he
    injection he with hee
    cases hdm : desc.mid with
    | none => rw [hdm] at hb; simp at hb
    | some dmid =>
      rw [hdm] at hb
      rw [Option.some_bind] at hb
      obtain ⟨m, hmm, hmt⟩ := find_bundled_transport_mem hb
      rw [← hee, ← hmt]
      exact hm m hmm
  | none =>
    rw [hb] at he
    dsimp only at he ⊢
    cases hc : Transport.create_from_offer s.transports.next_key s.transport_changes sess desc with
    | none => rw [hc] at he; simp at he
    | some r =>
      rw [hc] at he
      cases r with
      | mk t changes2 =>
        dsimp only at he
        injection he with hee
        rw [← hee]
        exact SlotMap.contains_insert_self _ _

lemma update_active_media_fields (s : SessionState) (rq : DirectionBools)
    (id : Nat) :
    (s.update_active_media rq id).transports = s.transports ∧
    (s.update_active_media rq id).pending_changes = s.pending_changes ∧
    (s.update_active_media rq id).state.map Media.transport
      = s.state.map Media.transport := by
  unfold SessionState.update_active_media
  cases position? (fun m => m.id = id) s.state with
  | none => exact ⟨rfl, rfl, rfl⟩
  | some i =>
    dsimp only
    cases s.state[i]? with
    | none => exact ⟨rfl, rfl, rfl⟩
    | some m =>
      dsimp only
      by_cases hdir : m.direction.toDirection ≠ rq.toDirection
      · rw [if_pos hdir]
        exact ⟨rfl, rfl, listUpdateAt_map_eq_at Media.transport s.state i _ (fun a _ => rfl)⟩
      · rw [if_neg hdir]
        exact ⟨rfl, rfl, rfl⟩

/-- Loop invariant of the m-line loop of receive_sdp_offer. -/
def OfferLoopInv (s0 : SessionState) (acc : OfferAccum) : Prop :=
  (∀ m ∈ acc.session.state, acc.session.transports.contains m.transport = true) ∧
  (∀ m ∈ acc.new_state, acc.session.transports.contains m.transport = true) ∧
  acc.session.pending_changes = s0.pending_changes ∧
  (∀ x, s0.transports.contains x = true →
    acc.session.transports.contains x = true)

lemma contains_of_map_transport {l2 l : List Media} {ts : SlotMap TransportEntry}
    (hmap : l2.map Media.transport = l.map Media.transport)
    (h : ∀ m ∈ l, ts.contains m.transport = true) :
    ∀ m ∈ l2, ts.contains m.transport = true := by
  intro m hm
  have : m.transport ∈ l.map Media.transport :=
    hmap ▸ List.mem_map_of_mem Media.transport hm
  obtain ⟨m2, hm2, he2⟩ := List.mem_map.mp this
  exact he2 ▸ h m2 hm2

lemma offer_mline_loopinv (s0 : SessionState) (now : Nat) (ssrcOf : Nat → Nat)
    (offer : SessionDescription) (desc : MediaDescription) (acc : OfferAccum)
    (h : OfferLoopInv s0 acc) :
    OfferLoopInv s0 (receiveSdpOfferMLine now ssrcOf offer acc desc) := by
  obtain ⟨ha, hb, hc, hd⟩ := h
  unfold receiveSdpOfferMLine
  dsimp only
  cases hpos : position? (fun m => m.matches acc.session.transports desc)
      acc.session.state with
  | some i =>
    dsimp only
    cases hg : acc.session.state[i]? with
    | none => exact ⟨ha, hb, hc, hd⟩
    | some m0 =>
      dsimp only
      obtain ⟨htr, hpd, hmap⟩ := update_active_media_fields acc.session
        (desc.direction.flipped).toBools m0.id
      cases hg2 : (acc.session.update_active_media
          (desc.direction.flipped).toBools m0.id).state[i]? with
      | none => exact ⟨ha, hb, hc, hd⟩
      | some m1 =>
        dsimp only
        have hupd : ∀ m ∈ (acc.session.update_active_media
            (desc.direction.flipped).toBools m0.id).state,
            acc.session.transports.contains m.transport = true :=
          contains_of_map_transport hmap ha
        refine ⟨?_, ?_, ?_, ?_⟩
        · intro m hm
          rw [htr]
          exact hupd m (mem_eraseIdx hm)
        · intro m hm
          rw [htr]
          rcases List.mem_append.mp hm with hold | hnew
          · exact hb m hold
          · rw [List.mem_singleton] at hnew
            exact hnew ▸ hupd m1 (mem_of_getElemOpt _ i m1 hg2)
        · rw [hpd]
          exact hc
        · intro x hx
          rw [htr]
          exact hd x hx
  | none =>
    dsimp only
    cases hf : findLocalMediaForOffer acc.session.local_media.entries desc with
    | none => exact ⟨ha, hb, hc, hd⟩
    | some r =>
      obtain ⟨lmid, chosen, lm2⟩ := r
      dsimp only
      cases hg2 : ({ acc.session with
            local_media := acc.session.local_media.setVal lmid lm2
          } : SessionState).get_or_create_transport acc.new_state offer desc with
      | mk s3 opt =>
        have hst : s3.state = acc.session.state := by
          have := get_or_create_transport_state
            { acc.session with
              local_media := acc.session.local_media.setVal lmid lm2 }
            acc.new_state offer desc
          rw [hg2] at this
          exact this
        have hpd : s3.pending_changes = acc.session.pending_changes := by
          have := get_or_create_transport_pending
            { acc.session with
              local_media := acc.session.local_media.setVal lmid lm2 }
            acc.new_state offer desc
          rw [hg2] at this
          exact this
        have hmono : ∀ x, acc.session.transports.contains x = true →
            s3.transports.contains x = true := by
          intro x hx
          have := get_or_create_transport_mono
            { acc.session with
              local_media := acc.session.local_media.setVal lmid lm2 }
            acc.new_state offer desc x hx
          rw [hg2] at this
          exact this
        cases opt with
        | none =>
          dsimp only
          refine ⟨?_, ?_, ?_, ?_⟩
          · intro m hm
            rw [hst] at hm
            exact hmono _ (ha m hm)
          · intro m hm
            exact hmono _ (hb m hm)
          · rw [hpd]; exact hc
          · intro x hx
            exact hmono x (hd x hx)
        | some tid =>
          dsimp only
          have htid : s3.transports.contains tid = true := by
            have := get_or_create_transport_contains
              { acc.session with
                local_media := acc.session.local_media.setVal lmid lm2 }
              acc.new_state offer desc tid
              (by
                intro m hm
                rcases List.mem_append.mp hm with hm1 | hm2
                · exact hb m hm1
                · exact ha m hm2)
              (by rw [hg2])
            rw [hg2] at this
            exact this
          refine ⟨?_, ?_, ?_, ?_⟩
          · intro m hm
            rw [hst] at hm
            exact hmono _ (ha m hm)
          · intro m hm
            rcases List.mem_append.mp hm with hold | hnew
            · exact hmono _ (hb m hold)
            · rw [List.mem_singleton] at hnew
              rw [hnew]
              exact htid
          · rw [hpd]; exact hc
          · intro x hx
            exact hmono x (hd x hx)

lemma offer_fold_loopinv (s0 : SessionState) (now : Nat) (ssrcOf : Nat → Nat)
    (offer : SessionDescription) :
    ∀ (descs : List MediaDescription) (acc : OfferAccum),
      OfferLoopInv s0 acc →
      OfferLoopInv s0 (descs.foldl (receiveSdpOfferMLine now ssrcOf offer) acc) := by
  intro descs
  induction descs with
  | nil => intro acc h; exact h
  | cons d rest ih =>
    intro acc h
    exact ih _ (offer_mline_loopinv s0 now ssrcOf offer d acc h)

lemma retire_fold_fields (l : List Media) :
    ∀ st : SessionState,
      (l.foldl retireMedia st).state = st.state ∧
      (l.foldl retireMedia st).transports = st.transports ∧
      (l.foldl retireMedia st).pending_changes = st.pending_changes := by
  induction l with
  | nil => intro st; exact ⟨rfl, rfl, rfl⟩
  | cons m rest ih =>
    intro st
    obtain ⟨h1, h2, h3⟩ := ih (retireMedia st m)
    exact ⟨h1, h2, h3⟩

lemma inv_receive_sdp_offer (s : SessionState) (offer : SessionDescription)
    (now : Nat) (ssrcOf : Nat → Nat) (h : SessionInv s) :
    SessionInv (s.receive_sdp_offer offer now ssrcOf).2 := by
  obtain ⟨h1, h2, h3⟩ := h
  have hloop := offer_fold_loopinv s now ssrcOf offer offer.media_descriptions
    ⟨s, [], []⟩ ⟨h1, by intro m hm; simp at hm, rfl, fun x hx => hx⟩
  unfold SessionState.receive_sdp_offer
  dsimp only
  obtain ⟨la, lb, lc, ld⟩ := hloop
  set accN := offer.media_descriptions.foldl
    (receiveSdpOfferMLine now ssrcOf offer) ⟨s, [], []⟩ with haccN
  obtain ⟨f1, f2, f3⟩ := retire_fold_fields accN.session.state
    { accN.session with state := accN.new_state }
  refine inv_remove_unused_transports _ ?_ ?_
  · intro m hm
    rw [f1] at hm
    rw [f2]
    exact lb m hm
  · intro pm hpm
    rw [f3, lc] at hpm
    rw [f2]
    obtain ⟨hbb, hss⟩ := h3 pm hpm
    exact ⟨ld _ hbb, fun st hst => ld _ (hss st hst)⟩

lemma answer_mline_inv (s : SessionState) (answer : SessionDescription)
    (desc : MediaDescription) (now : Nat) (ssrcOf : Nat → Nat)
    (s2 : SessionState)
    (h1 : ∀ m ∈ s.state, s.transports.contains m.transport = true)
    (h3 : ∀ pm, PendingChange.addMedia pm ∈ s.pending_changes →
      s.transports.contains pm.bundle_transport = true ∧
      ∀ st, pm.standalone_transport = some st → s.transports.contains st = true)
    (he : s.receive_sdp_answer_mline answer desc now ssrcOf = some s2) :
    (∀ m ∈ s2.state, s2.transports.contains m.transport = true) ∧
    (∀ pm, PendingChange.addMedia pm ∈ s2.pending_changes →
      s2.transports.contains pm.bundle_transport = true ∧
      ∀ st, pm.standalone_transport = some st →
        s2.transports.contains st = true) := by
  unfold SessionState.receive_sdp_answer_mline at he
  by_cases hdir : desc.direction = Direction.inactive
  · rw [if_pos hdir] at he
    injection he with hee
    rw [← hee]
    exact ⟨h1, h3⟩
  · rw [if_neg hdir] at he
    dsimp only at he
    cases hfind : s.state.find? (fun m =>
        !(s.pending_changes.any (fun c =>
          match c with
          | .removeMedia rid => rid = m.id
          | _ => false)) && m.matches s.transports desc) with
    | some m =>
      rw [hfind] at he
      injection he with hee
      rw [← hee]
      obtain ⟨htr, hpd, hmap⟩ := update_active_media_fields s
        (desc.direction.flipped).toBools m.id
      constructor
      · intro m2 hm2
        rw [htr]
        exact contains_of_map_transport hmap h1 m2 hm2
      · intro pm hpm
        rw [hpd] at hpm
        rw [htr]
        exact h3 pm hpm
    | none =>
      rw [hfind] at he
      dsimp only at he
      cases hpos : position? (fun c =>
          match c with
          | PendingChange.addMedia pm => pm.matches_answer s.transports desc
          | _ => false) s.pending_changes with
      | none =>
        rw [hpos] at he
        injection he with hee
        rw [← hee]
        exact ⟨h1, h3⟩
      | some i =>
        rw [hpos] at he
        dsimp only at he
        cases hgp : s.pending_changes[i]? with
        | none =>
          rw [hgp] at he
          injection he with hee
          rw [← hee]
          exact ⟨h1, h3⟩
        | some c =>
          rw [hgp] at he
          cases c with
          | removeMedia rid =>
            dsimp only at he
            injection he with hee
            rw [← hee]
            exact ⟨h1, h3⟩
          | changeDirection cid cd =>
            dsimp only at he
            injection he with hee
            rw [← hee]
            exact ⟨h1, h3⟩
          | addMedia pm =>
            dsimp only at he
            cases htid : (if answer.group.any (fun g =>
                g.typ = "BUNDLE" && g.mids.any (fun m => m = pm.mid)) then
                some pm.bundle_transport
              else pm.standalone_transport) with
            | none => rw [htid] at he; simp at he
            | some tid =>
              rw [htid] at he
              dsimp only at he
              cases hget : s.transports.get? tid with
              | none => rw [hget] at he; simp at he
              | some entry =>
                rw [hget] at he
                dsimp only at he
                have hcontid : s.transports.contains tid = true :=
                  SlotMap.contains_of_get? hget
                cases hlm : (SlotMap.setVal s.transports tid
                      (TransportEntry.transport
                        (match entry with
                         | TransportEntry.transportBuilder b =>
                           b.build_from_answer tid s.transport_changes answer desc
                         | TransportEntry.transport t =>
                           (t, s.transport_changes)).1)) with
                | mk nk ents =>
                  cases entry with
                  | transportBuilder b =>
                    dsimp only at he
                    cases hglm : s.local_media.get? pm.local_media_id with
                    | none => rw [hglm] at he; simp at he
                    | some lm =>
                      rw [hglm] at he
                      dsimp only at he
                      cases hcc : lm.choose_codec_from_answer desc with
                      | none => rw [hcc] at he; simp at he
                      | some r =>
                        rw [hcc] at he
                        cases r with
                        | mk chosen lm2 =>
                          dsimp only at he
                          injection he with hee
                          rw [← hee]
                          dsimp only
                          constructor
                          · intro m2 hm2
                            rw [SlotMap.contains_setVal]
                            rcases List.mem_append.mp hm2 with hold | hnew
                            · exact h1 m2 hold
                            · rw [List.mem_singleton] at hnew
                              rw [hnew]
                              exact hcontid
                          · intro pm2 hpm2
                            have hmem := mem_eraseIdx hpm2
                            obtain ⟨hbb, hss⟩ := h3 pm2 hmem
                            rw [SlotMap.contains_setVal]
                            refine ⟨hbb, ?_⟩
                            intro st hst
                            rw [SlotMap.contains_setVal]
                            exact hss st hst
                  | transport t =>
                    dsimp only at he
                    cases hglm : s.local_media.get? pm.local_media_id with
                    | none => rw [hglm] at he; simp at he
                    | some lm =>
                      rw [hglm] at he
                      dsimp only at he
                      cases hcc : lm.choose_codec_from_answer desc with
                      | none => rw [hcc] at he; simp at he
                      | some r =>
                        rw [hcc] at he
                        cases r with
                        | mk chosen lm2 =>
                          dsimp only at he
                          injection he with hee
                          rw [← hee]
                          dsimp only
                          constructor
                          · intro m2 hm2
                            rw [SlotMap.contains_setVal]
                            rcases List.mem_append.mp hm2 with hold | hnew
                            · exact h1 m2 hold
                            · rw [List.mem_singleton] at hnew
                              rw [hnew]
                              exact hcontid
                          · intro pm2 hpm2
                            have hmem := mem_eraseIdx hpm2
                            obtain ⟨hbb, hss⟩ := h3 pm2 hmem
                            rw [SlotMap.contains_setVal]
                            refine ⟨hbb, ?_⟩
                            intro st hst
                            rw [SlotMap.contains_setVal]
                            exact hss st hst

lemma answer_mlines_inv (answer : SessionDescription) (now : Nat)
    (ssrcOf : Nat → Nat) :
    ∀ (descs : List MediaDescription) (s s2 : SessionState),
      (∀ m ∈ s.state, s.transports.contains m.transport = true) →
      (∀ pm, PendingChange.addMedia pm ∈ s.pending_changes →
        s.transports.contains pm.bundle_transport = true ∧
        ∀ st, pm.standalone_transport = some st →
          s.transports.contains st = true) →
      answerMLines answer now ssrcOf descs s = some s2 →
      ((∀ m ∈ s2.state, s2.transports.contains m.transport = true) ∧
       (∀ pm, PendingChange.addMedia pm ∈ s2.pending_changes →
         s2.transports.contains pm.bundle_transport = true ∧
         ∀ st, pm.standalone_transport = some st →
           s2.transports.contains st = true)) := by
  intro descs
  induction descs with
  | nil =>
    intro s s2 h1 h3 he
    rw [answerMLines] at he
    injection he with hee
    rw [← hee]
    exact ⟨h1, h3⟩
  | cons d rest ih =>
    intro s s2 h1 h3 he
    rw [answerMLines] at he
    cases hm : s.receive_sdp_answer_mline answer d now ssrcOf with
    | none => rw [hm] at he; simp at he
    | some smid =>
      rw [hm] at he
      obtain ⟨g1, g3⟩ := answer_mline_inv s answer d now ssrcOf smid h1 h3 hm
      exact ih smid s2 g1 g3 he

lemma applyRemove_fold_fields (l : List Nat) :
    ∀ st : SessionState,
      (l.foldl applyRemoveMedia st).transports = st.transports ∧
      (l.foldl applyRemoveMedia st).pending_changes = st.pending_changes ∧
      (∀ m ∈ (l.foldl applyRemoveMedia st).state, m ∈ st.state) := by
  induction l with
  | nil => intro st; exact ⟨rfl, rfl, fun m hm => hm⟩
  | cons rid rest ih =>
    intro st
    obtain ⟨a1, a2, a3⟩ := ih (applyRemoveMedia st rid)
    refine ⟨a1, a2, ?_⟩
    intro m hm
    exact List.mem_of_mem_filter (a3 m hm)

lemma inv_receive_sdp_answer (s : SessionState) (answer : SessionDescription)
    (now : Nat) (ssrcOf : Nat → Nat) (s2 : SessionState) (h : SessionInv s)
    (he : s.receive_sdp_answer answer now ssrcOf = some s2) : SessionInv s2 := by
  obtain ⟨h1, h2, h3⟩ := h
  unfold SessionState.receive_sdp_answer at he
  cases hl : answerMLines answer now ssrcOf answer.media_descriptions s with
  | none => rw [hl] at he; simp at he
  | some sl =>
    rw [hl] at he
    dsimp only at he
    obtain ⟨g1, g3⟩ := answer_mlines_inv answer now ssrcOf _ s sl h1 h3 hl
    injection he with hee
    rw [← hee]
    obtain ⟨a1, a2, a3⟩ := applyRemove_fold_fields
      (sl.pending_changes.filterMap (fun c =>
        match c with
        | PendingChange.removeMedia id => some id
        | _ => none))
      { sl with pending_changes := [] }
    refine inv_remove_unused_transports _ ?_ ?_
    · intro m hm
      rw [a1]
      exact g1 m (a3 m hm)
    · intro pm hpm
      rw [a2] at hpm
      simp at hpm

/-- C6: in every state reachable by any sequence of SessionState
operations, each live Media holds a TransportId present in the transports
map, and the transports map contains no entry unreferenced by a live
Media or a pending AddMedia (remove_unused_transports drops exactly the
unreferenced entries, emitting TransportChange.remove for each); moreover
every pending AddMedia's transport ids are live. -/
theorem c6_transport_liveness (s : SessionState) (h : Reachable s) :
    (∀ m ∈ s.state, s.transports.contains m.transport = true) ∧
    (∀ e ∈ s.transports.entries, transportReferenced s e.1) ∧
    (∀ pm, PendingChange.addMedia pm ∈ s.pending_changes →
      s.transports.contains pm.bundle_transport = true ∧
      ∀ st, pm.standalone_transport = some st →
        s.transports.contains st = true) := by
  induction h with
  | new address options id version =>
    exact ⟨by intro m hm; simp [SessionState.new] at hm,
      by intro e he; simp [SessionState.new, SlotMap.empty] at he,
      by intro pm hpm; simp [SessionState.new] at hpm⟩
  | add_stun_server s a _ ih => exact ih
  | add_local_media s codecs limit d _ ih =>
    exact inv_add_local_media s codecs limit d ih
  | add_media s lmid d r _ he ih => exact inv_add_media s lmid d r ih he
  | remove_media s id _ ih => exact inv_remove_media s id ih
  | update_media s id d _ ih => exact inv_update_media s id d ih
  | take_transport_changes s _ ih => exact inv_take_transport_changes s ih
  | set_transport_ports s tid ips rtp rtcp s2 _ he ih =>
    exact inv_set_transport_ports s tid ips rtp rtcp s2 ih he
  | poll s now s2 _ he ih => exact inv_poll s now s2 ih he
  | pop_event s _ ih => exact inv_pop_event s ih
  | receive s tid pkt s2 _ he ih => exact inv_receive s tid pkt s2 ih he
  | send_rtp s mid pkt s2 _ he ih => exact inv_send_rtp s mid pkt s2 ih he
  | receive_sdp_offer s offer now ssrcOf _ ih =>
    exact inv_receive_sdp_offer s offer now ssrcOf ih
  | receive_sdp_answer s answer now ssrcOf s2 _ he ih =>
    exact inv_receive_sdp_answer s answer now ssrcOf s2 ih he
  | transport_state s tid t cs _ _ ih => exact inv_transport_state s tid t cs ih

/-- Witness session for C6: a fresh max-bundle session, one local media
(PCMA), then add_media, leaving one transport and one pending AddMedia
referencing it. -/
def c6Base : SessionState :=
  SessionState.new 10 ⟨.rtp, false, false, .require, .maxBundle⟩ 1 1

/-- The C6 witness session after add_local_media. -/
def c6LM : SessionState :=
  (c6Base.add_local_media
    ⟨.audio, [⟨"PCMA", 8000, none, some 8, none⟩], false⟩ 2 .sendRecv).2

/-- The C6 witness session after add_media. -/
def c6Session : SessionState :=
  ((c6LM.add_media 0 .sendRecv).getD (0, c6LM)).2

/-- Witness for c6_transport_liveness: the concrete session built by the
three operations is reachable and the invariant holds on it; in
particular its single transport entry is referenced by the pending
AddMedia. -/
theorem c6_transport_liveness_witness :
    ((∀ m ∈ c6Session.state, c6Session.transports.contains m.transport = true) ∧
     (∀ e ∈ c6Session.transports.entries, transportReferenced c6Session e.1) ∧
     (∀ pm, PendingChange.addMedia pm ∈ c6Session.pending_changes →
       c6Session.transports.contains pm.bundle_transport = true ∧
       ∀ st, pm.standalone_transport = some st →
         c6Session.transports.contains st = true)) ∧
    c6Session.transports.entries.length = 1 := by
  have h0 : Reachable c6Base := Reachable.new _ _ _ _
  have h1 : Reachable c6LM := Reachable.add_local_media _ _ _ _ h0
  have hm : c6LM.add_media 0 .sendRecv =
      some ((c6LM.add_media 0 .sendRecv).getD (0, c6LM)) := by rfl
  have h2 : Reachable c6Session := Reachable.add_media _ _ _ _ h1 hm
  exact ⟨c6_transport_liveness c6Session h2, by decide⟩
